import Mathlib

/-!
Verification development for the tenant-isolated data access engine of the
`sdk-tin-multi-tenant` TypeScript SDK.

The definitions below are a shallow embedding of the source:

* `PostgreSQLAdapter.*` embeds the PostgreSQL adapter (src/unnamed/part_002):
  SQL statements against one backing store are interpreted as pure functions
  over an explicit row list (`DB`).
* `MongoDBAdapter.*` embeds the MongoDB adapter
  (src/src/adapters/database/MongoDBAdapter.ts).
* `SupabaseAdapter.*` embeds the Supabase adapter
  (src/src/adapters/database/SupabaseAdapter.ts, class `SupabaseAdapter`),
  using the documented supabase-js / PostgREST client behaviour: a `.single()`
  response is an error unless exactly one row is returned, and a filtered
  `delete()` that matches zero rows reports no error.
* `RedisCacheAdapter.*` embeds the Redis cache adapter (src/unnamed/part_001);
  Redis itself is modelled as an association list from physical key to entry,
  and `KEYS pattern` by an executable glob matcher.
* `MigrationManager.*` embeds the migration engine (src/unnamed/part_003); the
  `migrations` table is explicit state, and the opaque forward/reverse SQL
  scripts are interpreted by an environment `MigEnv` that says whether a
  script succeeds and how long a migration takes (wall-clock time is not
  modelled otherwise).
* `DataManagerV3.*` embeds the data access facade (src/unnamed/part_005),
  parametrised over an `AdapterModel` exactly as the source is constructed
  over an `IDatabaseAdapter`; the possibly failing audit write is abstracted
  by a boolean.

Modelling conventions, stated once: generated UUIDs become a deterministic
fresh-id counter; `created_at` / `updated_at` wall-clock columns are omitted;
the raw SQL projection string `options.select` is omitted (no claim depends on
projection); SQL/Mongo sort collation is modelled as code-point lexicographic
order with missing fields first; JSON serialisation round-trips values; the
analytics and event side channels of the facade are not modelled (no claim
touches them). JavaScript truthiness of optional numbers and strings (`0`,
`""` are falsy) is preserved by the `js*` helpers.
-/

/-! ## Field maps and records -/

/-- A row's generic payload: field name to value, as the adapters receive
`Partial<T>` objects. -/
abbrev Fields := List (String × String)

/-- JavaScript object-key assignment `obj[k] = v`: replace the binding if the
key exists, else append it. -/
def setKey (l : List (String × β)) (k : String) (v : β) : List (String × β) :=
  if l.any (fun p => p.1 == k) then
    l.map (fun p => bif p.1 == k then (k, v) else p)
  else l ++ [(k, v)]

/-- Drop the listed keys from a field map (used where a later spread in the
source overwrites caller-supplied keys). -/
def removeKeys (l : Fields) (ks : List String) : Fields :=
  l.filter (fun p => !(ks.contains p.1))

/-- A stored record: every persisted row carries its generated id, its owning
tenant, and the remaining payload columns. -/
structure Record where
  id : String
  tenant_id : String
  fields : Fields
deriving DecidableEq

/-- A row of the backing store, tagged with its table / collection name. -/
structure TRow where
  table : String
  record : Record
deriving DecidableEq

/-- The backing store: all rows of all tables, plus the fresh-id counter that
stands in for the UUID generator. -/
structure DB where
  rows : List TRow
  nextId : Nat
deriving DecidableEq

/-- Deterministic stand-in for `uuidv4()`. -/
def freshId (n : Nat) : String := "uuid-" ++ toString n

/-- The tenant context threaded through every operation (src/types/data). -/
structure TenantContext where
  tenant_id : String
  user_id : String
  role : String
  permissions : List String
deriving DecidableEq

/-- `QueryOptions`: equality filters, sort (column, ascending), limit, offset.
The raw projection string `select` is omitted (see header). -/
structure QueryOptions where
  filter : Option Fields := none
  order : Option (String × Bool) := none
  limit : Option Nat := none
  offset : Option Nat := none
deriving DecidableEq

/-- `DataResult<T>` as the adapters return it. -/
structure DataResult (α : Type) where
  data : Option α
  error : Option String := none
  count : Option Nat := none
deriving DecidableEq

/-- `DataError(message, code, statusCode)` from src/utils/errors.ts (the
`details` payload is dropped). -/
structure DataError where
  message : String
  code : String
  status : Nat
deriving DecidableEq

/-- `SDKError(message, code, statusCode)` from src/utils/errors.ts. -/
structure SDKError where
  message : String
  code : String
  status : Nat
deriving DecidableEq

/-- The string constants of `ErrorCodes` used by the embedded components. -/
def ErrorCodes.RESOURCE_NOT_FOUND : String := "RESOURCE_NOT_FOUND"

def ErrorCodes.DATABASE_ERROR : String := "DATABASE_ERROR"

def ErrorCodes.CONFIGURATION_ERROR : String := "CONFIGURATION_ERROR"

instance {ε α : Type} [DecidableEq ε] [DecidableEq α] : DecidableEq (Except ε α) := fun
  | .ok a, .ok b =>
    if h : a = b then .isTrue (by rw [h]) else .isFalse (fun c => h (Except.ok.inj c))
  | .error e, .error f =>
    if h : e = f then .isTrue (by rw [h]) else .isFalse (fun c => h (Except.error.inj c))
  | .ok _, .error _ => .isFalse (fun c => Except.noConfusion c)
  | .error _, .ok _ => .isFalse (fun c => Except.noConfusion c)

/-! ## JavaScript truthiness helpers -/

/-- `x || d` for an optional number: `undefined` and `0` fall through. -/
def jsOrN (o : Option Nat) (d : Nat) : Nat :=
  match o with
  | some n => if n = 0 then d else n
  | none => d

/-- The truthiness test `if (x)` on an optional number: `0` counts as absent. -/
def jsNum (o : Option Nat) : Option Nat :=
  match o with
  | some 0 => none
  | x => x

/-- `x || d` for an optional string: `undefined` and `""` fall through. -/
def jsOrStr (o : Option String) (d : String) : String :=
  match o with
  | some s => if s = "" then d else s
  | none => d

/-! ## Ordering (models SQL / Mongo sort, code-point lexicographic) -/

/-- Code-point lexicographic strict order on char lists. -/
def lexLt : List Char → List Char → Bool
  | [], [] => false
  | [], _ :: _ => true
  | _ :: _, [] => false
  | a :: as, b :: bs =>
    if a.toNat < b.toNat then true
    else if a.toNat = b.toNat then lexLt as bs
    else false

/-- Code-point lexicographic strict order on strings (models the backend's
string comparison, e.g. `version > ?`). -/
def strLtB (a b : String) : Bool := lexLt a.data b.data

/-- `a ≤ b` on optional column values, missing values first. -/
def leOptStr (a b : Option String) : Bool :=
  match a, b with
  | none, _ => true
  | some _, none => false
  | some x, some y => !(strLtB y x)

/-- Stable insertion sort by a boolean `≤`. -/
def insertionSortBy (le : α → α → Bool) : List α → List α
  | [] => []
  | x :: xs => insertOrd le x (insertionSortBy le xs)
where insertOrd (le : α → α → Bool) (x : α) : List α → List α
  | [] => [x]
  | y :: ys => if le x y then x :: y :: ys else y :: insertOrd le x ys

/-! ## PostgreSQL adapter (src/unnamed/part_002) -/

namespace PostgreSQLAdapter

/-- Column access for the SQL adapters: `id` and `tenant_id` are real columns,
anything else is a payload field. -/
def getField (r : Record) (k : String) : Option String :=
  if k = "id" then some r.id
  else if k = "tenant_id" then some r.tenant_id
  else r.fields.lookup k

/-- The caller-supplied equality filters, each rendered as a further
`AND col = $n` conjunct (part_002 lines 129-135). -/
def matchesFilter (r : Record) (f : Option Fields) : Bool :=
  (f.getD []).all (fun kv => getField r kv.1 == some kv.2)

/-- `ORDER BY col ASC|DESC`. -/
def orderByColumn (col : String) (asc : Bool) (l : List Record) : List Record :=
  insertionSortBy
    (fun a b =>
      if asc then leOptStr (getField a col) (getField b col)
      else leOptStr (getField b col) (getField a col)) l

/-- `SET k = v` on one row; `id` and `tenant_id` are ordinary columns. -/
def setColumn (r : Record) (k v : String) : Record :=
  if k = "id" then { r with id := v }
  else if k = "tenant_id" then { r with tenant_id := v }
  else { r with fields := setKey r.fields k v }

/-- Apply a whole `SET` clause. -/
def applyUpdates (r : Record) (updates : Fields) : Record :=
  updates.foldl (fun acc kv => setColumn acc kv.1 kv.2) r

/-- `INSERT ... RETURNING *` (part_002 lines 83-120): stamps the generated id
and `tenant_id = context.tenant_id` over the payload. -/
def create (db : DB) (table : String) (data : Fields) (context : TenantContext) :
    Except DataError (DataResult Record) × DB :=
  let record : Record :=
    { id := freshId db.nextId
      tenant_id := context.tenant_id
      fields := removeKeys data ["id", "tenant_id"] }
  (.ok { data := some record },
    { rows := db.rows ++ [⟨table, record⟩], nextId := db.nextId + 1 })

/-- `SELECT ... WHERE tenant_id = $1 [AND filters] [ORDER BY] [LIMIT] [OFFSET]`
plus the companion `COUNT(*)` query when pagination was requested
(part_002 lines 122-180). `if (options.limit)` / `if (options.offset)` keep
JavaScript truthiness: a limit or offset of `0` adds no clause. -/
def read (db : DB) (table : String) (options : QueryOptions) (context : TenantContext) :
    Except DataError (DataResult (List Record)) :=
  let matched := ((db.rows.filter (fun t => t.table == table)).map (fun t => t.record)).filter
    (fun r => r.tenant_id == context.tenant_id && matchesFilter r options.filter)
  let ordered := match options.order with
    | some (col, asc) => orderByColumn col asc matched
    | none => matched
  let lim := jsNum options.limit
  let off := jsNum options.offset
  let afterOff := match off with
    | some o => ordered.drop o
    | none => ordered
  let paged := match lim with
    | some l => afterOff.take l
    | none => afterOff
  let count := if lim.isSome || off.isSome then some matched.length else none
  .ok { data := some paged, count := count }

/-- Whether a stored row is hit by `WHERE id = $1 AND tenant_id = $2`. -/
def rowMatch (table id : String) (context : TenantContext) (t : TRow) : Bool :=
  t.table == table && t.record.id == id && t.record.tenant_id == context.tenant_id

/-- `UPDATE ... WHERE id = $1 AND tenant_id = $2 RETURNING *`; zero returned
rows throw `DataError(RESOURCE_NOT_FOUND, 404)` (part_002 lines 182-218). -/
def update (db : DB) (table id : String) (updates : Fields) (context : TenantContext) :
    Except DataError (DataResult Record) × DB :=
  let returned := (db.rows.filter (rowMatch table id context)).map
    (fun t => applyUpdates t.record updates)
  match returned with
  | [] =>
    (.error { message := "Record not found or update failed"
              code := ErrorCodes.RESOURCE_NOT_FOUND, status := 404 }, db)
  | r :: _ =>
    (.ok { data := some r },
      { db with rows := db.rows.map (fun t =>
          if rowMatch table id context t then { t with record := applyUpdates t.record updates }
          else t) })

/-- `DELETE ... WHERE id = $1 AND tenant_id = $2`; `rowCount === 0` throws
`DataError(RESOURCE_NOT_FOUND, 404)` (part_002 lines 220-240). The success
value `{ data: undefined }` is modelled as `data := some ()`, the error result
`{ data: null }` as `data := none`, keeping the two distinguishable as the
facade's `result.data === undefined` check requires. -/
def delete (db : DB) (table id : String) (context : TenantContext) :
    Except DataError (DataResult Unit) × DB :=
  if (db.rows.filter (rowMatch table id context)).isEmpty then
    (.error { message := "Record not found"
              code := ErrorCodes.RESOURCE_NOT_FOUND, status := 404 }, db)
  else
    (.ok { data := some () },
      { db with rows := db.rows.filter (fun t => !(rowMatch table id context t)) })

/-- Multi-row `INSERT ... RETURNING *` (part_002 lines 242-279): stamps an id
and the context's `tenant_id` on every record; empty input returns `[]`. -/
def bulkCreate (db : DB) (table : String) (records : List Fields) (context : TenantContext) :
    Except DataError (DataResult (List Record)) × DB :=
  if records.isEmpty then (.ok { data := some [] }, db)
  else
    let stamped := records.enum.map (fun (p : Nat × Fields) =>
      ({ id := freshId (db.nextId + p.1)
         tenant_id := context.tenant_id
         fields := removeKeys p.2 ["id", "tenant_id"] } : Record))
    (.ok { data := some stamped },
      { rows := db.rows ++ stamped.map (fun r => ⟨table, r⟩)
        nextId := db.nextId + records.length })

end PostgreSQLAdapter

/-! ## MongoDB adapter (src/src/adapters/database/MongoDBAdapter.ts) -/

namespace MongoDBAdapter

/-- Document field access: the Mongo documents store the id under `_id`. -/
def getField (r : Record) (k : String) : Option String :=
  if k = "_id" then some r.id
  else if k = "tenant_id" then some r.tenant_id
  else r.fields.lookup k

/-- The `$match` query object of `read` (MongoDBAdapter.ts lines 128-135): it
starts as `{ tenant_id: context.tenant_id }` and each caller filter entry is
assigned into the same object, overwriting an existing binding of the same
key. -/
def buildQuery (filter : Option Fields) (context : TenantContext) : Fields :=
  (filter.getD []).foldl (fun q kv => setKey q kv.1 kv.2) [("tenant_id", context.tenant_id)]

/-- A document satisfies the query object when every bound key equals its
value. -/
def matchesQuery (r : Record) (q : Fields) : Bool :=
  q.all (fun kv => getField r kv.1 == some kv.2)

/-- `$set` of `findOneAndUpdate`. -/
def applySet (r : Record) (updates : Fields) : Record :=
  updates.foldl (fun acc kv =>
    if kv.1 = "_id" then { acc with id := kv.2 }
    else if kv.1 = "tenant_id" then { acc with tenant_id := kv.2 }
    else { acc with fields := setKey acc.fields kv.1 kv.2 }) r

/-- The aggregation pipeline of `read` (lines 123-187): `$match` on the built
query, `$sort`, `$skip`, `$limit`, and `countDocuments(query)` when pagination
was requested. `if (options.offset)` / `if (options.limit)` keep JavaScript
truthiness. -/
def read (db : DB) (table : String) (options : QueryOptions) (context : TenantContext) :
    Except DataError (DataResult (List Record)) :=
  let q := buildQuery options.filter context
  let matched := ((db.rows.filter (fun t => t.table == table)).map (fun t => t.record)).filter
    (fun r => matchesQuery r q)
  let ordered := match options.order with
    | some (col, asc) =>
      insertionSortBy
        (fun a b =>
          if asc then leOptStr (getField a col) (getField b col)
          else leOptStr (getField b col) (getField a col)) matched
    | none => matched
  let off := jsNum options.offset
  let lim := jsNum options.limit
  let afterOff := match off with
    | some o => ordered.drop o
    | none => ordered
  let paged := match lim with
    | some l => afterOff.take l
    | none => afterOff
  let count := if lim.isSome || off.isSome then some matched.length else none
  .ok { data := some paged, count := count }

/-- Does `{ _id: id, tenant_id: context.tenant_id }` select this row? -/
def rowMatch (table id : String) (context : TenantContext) (t : TRow) : Bool :=
  t.table == table && t.record.id == id && t.record.tenant_id == context.tenant_id

/-- `findOneAndUpdate` touches the first matching document. -/
def updateFirst (p : TRow → Bool) (f : TRow → TRow) : List TRow → Option (TRow × List TRow)
  | [] => none
  | t :: ts =>
    if p t then some (f t, f t :: ts)
    else (updateFirst p f ts).map (fun u => (u.1, t :: u.2))

/-- `deleteOne` removes the first matching document. -/
def removeFirst (p : TRow → Bool) : List TRow → Option (List TRow)
  | [] => none
  | t :: ts => if p t then some ts else (removeFirst p ts).map (fun l => t :: l)

/-- `findOneAndUpdate({_id, tenant_id}, {$set}, {returnDocument: 'after'})`;
a null result throws `DataError(RESOURCE_NOT_FOUND, 404)` (lines 189-225). -/
def update (db : DB) (table id : String) (updates : Fields) (context : TenantContext) :
    Except DataError (DataResult Record) × DB :=
  match updateFirst (rowMatch table id context)
      (fun t => { t with record := applySet t.record updates }) db.rows with
  | none =>
    (.error { message := "Document not found or update failed"
              code := ErrorCodes.RESOURCE_NOT_FOUND, status := 404 }, db)
  | some (t, rows) => (.ok { data := some t.record }, { db with rows := rows })

/-- `deleteOne({_id, tenant_id})`; `deletedCount === 0` throws
`DataError(RESOURCE_NOT_FOUND, 404)` (lines 227-251). -/
def delete (db : DB) (table id : String) (context : TenantContext) :
    Except DataError (DataResult Unit) × DB :=
  match removeFirst (rowMatch table id context) db.rows with
  | none =>
    (.error { message := "Document not found"
              code := ErrorCodes.RESOURCE_NOT_FOUND, status := 404 }, db)
  | some rows => (.ok { data := some () }, { db with rows := rows })

end MongoDBAdapter

/-! ## Supabase adapter (src/src/adapters/database/SupabaseAdapter.ts) -/

namespace SupabaseAdapter

/-- `.eq('id', id).eq('tenant_id', context.tenant_id)`. -/
def rowMatch (table id : String) (context : TenantContext) (t : TRow) : Bool :=
  t.table == table && t.record.id == id && t.record.tenant_id == context.tenant_id

/-- `update(updateData).eq('id', id).eq('tenant_id', ...).select().single()`
(lines 174-205): the update applies to every matched row; `.single()` makes
the client report an error unless exactly one row came back, and the adapter
maps any client error to `DataError('Failed to update record',
DATABASE_ERROR, 500)` — it never produces `RESOURCE_NOT_FOUND`. -/
def update (db : DB) (table id : String) (updates : Fields) (context : TenantContext) :
    Except DataError (DataResult Record) × DB :=
  let returned := (db.rows.filter (rowMatch table id context)).map
    (fun t => PostgreSQLAdapter.applyUpdates t.record updates)
  let newRows := db.rows.map (fun t =>
    if rowMatch table id context t
    then { t with record := PostgreSQLAdapter.applyUpdates t.record updates } else t)
  match returned with
  | [r] => (.ok { data := some r }, { db with rows := newRows })
  | _ =>
    (.error { message := "Failed to update record"
              code := ErrorCodes.DATABASE_ERROR, status := 500 },
      { db with rows := newRows })

/-- `delete().eq('id', id).eq('tenant_id', ...)` (lines 207-231): the client
reports no error when zero rows match, and the adapter checks nothing else,
so deleting a missing or foreign-tenant id returns the success value. -/
def delete (db : DB) (table id : String) (context : TenantContext) :
    Except DataError (DataResult Unit) × DB :=
  (.ok { data := some () },
    { db with rows := db.rows.filter (fun t => !(rowMatch table id context t)) })

end SupabaseAdapter

/-! ## Redis cache adapter (src/unnamed/part_001) -/

/-- The part of `CacheConfig` the embedded operations read. -/
structure CacheConfig where
  keyPrefix : Option String := none
  defaultTTL : Option Nat := none
deriving DecidableEq

/-- A cached entry: the stored (already serialised) payload and its TTL as
`SETEX` recorded it. -/
structure CacheEntry (α : Type) where
  value : α
  ttl : Nat
deriving DecidableEq

/-- The Redis keyspace: physical key to entry. -/
abbrev RedisCache (α : Type) := List (String × CacheEntry α)

namespace RedisCacheAdapter

/-- `getTenantKey` (part_001 lines 273-276):
`${config.keyPrefix || 'mt_sdk'}:tenant:${tenantId}:${key}`. -/
def getTenantKey (cfg : CacheConfig) (key tenantId : String) : String :=
  jsOrStr cfg.keyPrefix "mt_sdk" ++ ":tenant:" ++ tenantId ++ ":" ++ key

/-- `get(key, context)` (lines 72-94): a lookup at the tenant-scoped physical
key; deserialisation round-trips the stored payload. -/
def get (c : RedisCache α) (cfg : CacheConfig) (key : String) (context : TenantContext) :
    Option α :=
  (c.lookup (getTenantKey cfg key context.tenant_id)).map (fun e => e.value)

/-- `set(key, value, context, ttlSeconds)` (lines 96-112): `SETEX` at the
tenant-scoped key with `ttlSeconds || config.defaultTTL || 3600`. -/
def set (c : RedisCache α) (cfg : CacheConfig) (key : String) (context : TenantContext)
    (value : α) (ttlSeconds : Option Nat) : RedisCache α :=
  setKey c (getTenantKey cfg key context.tenant_id)
    { value := value, ttl := jsOrN ttlSeconds (jsOrN cfg.defaultTTL 3600) }

/-- `delete(key, context)` (lines 114-130): `DEL` at the tenant-scoped key. -/
def delete (c : RedisCache α) (cfg : CacheConfig) (key : String) (context : TenantContext) :
    RedisCache α :=
  c.filter (fun p => p.1 != getTenantKey cfg key context.tenant_id)

/-- `exists(key, context)` (lines 132-145). -/
def existsKey (c : RedisCache α) (cfg : CacheConfig) (key : String)
    (context : TenantContext) : Bool :=
  (c.lookup (getTenantKey cfg key context.tenant_id)).isSome

/-- Redis `KEYS` glob matching, for patterns built from `*` (any sequence) and
`?` (any one character); other characters match themselves. The `[...]` class
and backslash-escape forms of the Redis matcher are not modelled — the
key-derivation patterns we reason about are hypothesised free of them. -/
def globMatch : List Char → List Char → Bool
  | [], s => s.isEmpty
  | p :: ps, s =>
    if p = '*' then s.tails.any (fun t => globMatch ps t)
    else
      match s with
      | [] => false
      | c :: cs => if p = '?' then globMatch ps cs else p == c && globMatch ps cs

/-- `clearTenant(tenantId)` (lines 203-220): `KEYS ${getTenantKey('*',
tenantId)}` followed by `DEL` of every key the glob matched. -/
def clearTenant (c : RedisCache α) (cfg : CacheConfig) (tenantId : String) : RedisCache α :=
  let pattern := getTenantKey cfg "*" tenantId
  c.filter (fun p => !(globMatch pattern.data p.1.data))

end RedisCacheAdapter

/-! ## Migration engine (src/unnamed/part_003) -/

/-- A migration as submitted to the manager (src/interfaces/IDatabaseAdapter).
The forward and reverse change scripts are opaque SQL strings. -/
structure Migration where
  id : String
  name : String
  version : String
  tenant_id : Option String := none
  up : String
  down : String
deriving DecidableEq

/-- The `MigrationStatus` enum of part_003. -/
inductive MigrationStatus where
  | pending
  | running
  | completed
  | failed
  | rolled_back
deriving DecidableEq

/-- A row of the `migrations` table as the manager's statements read and write
it (timestamp columns omitted). -/
structure MigRow where
  id : String
  name : String
  version : String
  tenant_id : Option String := none
  status : MigrationStatus
  rollback_sql : String
  error_message : Option String := none
  duration_ms : Option Nat := none
deriving DecidableEq

/-- The manager's state: the `migrations` table plus the in-memory run lock
(`isLocked`). The lock's `setTimeout` force-release is real time and is not
modelled. -/
structure MigState where
  rows : List MigRow
  isLocked : Bool
deriving DecidableEq

/-- `MigrationResult` (part_003 lines 33-40; `executedAt` omitted). -/
structure MigrationResult where
  id : String
  name : String
  status : MigrationStatus
  duration : Option Nat := none
  error : Option String := none
deriving DecidableEq

/-- The environment interpreting the opaque change scripts through
`adapter.query`: `exec s = none` means the script ran, `some msg` means it
threw with that message; `dur` gives the measured duration of a migration by
id. The manager's own bookkeeping statements against the `migrations` table
are modelled as reliable state updates. -/
structure MigEnv where
  exec : String → Option String
  dur : String → Nat

namespace MigrationManager

/-- The concurrency error both `runMigrations` and `rollbackTo` throw when the
run lock is held (part_003 lines 77-83 and 113-119). -/
def lockError : SDKError :=
  { message := "Migration is already in progress"
    code := ErrorCodes.DATABASE_ERROR, status := 409 }

/-- `validateMigration` (lines 201-233): empty id, name, up or down is
rejected with a `CONFIGURATION_ERROR`. -/
def validateMigration (m : Migration) : Except SDKError Unit :=
  if m.id = "" then
    .error { message := "Migration ID is required"
             code := ErrorCodes.CONFIGURATION_ERROR, status := 400 }
  else if m.name = "" then
    .error { message := "Migration name is required"
             code := ErrorCodes.CONFIGURATION_ERROR, status := 400 }
  else if m.up = "" then
    .error { message := "Migration up SQL is required"
             code := ErrorCodes.CONFIGURATION_ERROR, status := 400 }
  else if m.down = "" then
    .error { message := "Migration down SQL is required"
             code := ErrorCodes.CONFIGURATION_ERROR, status := 400 }
  else .ok ()

/-- `SELECT id FROM migrations WHERE status = 'completed'` (lines 262-265). -/
def completedIds (rows : List MigRow) : List String :=
  (rows.filter (fun r => r.status == .completed)).map (fun r => r.id)

/-- `getPendingMigrations` (lines 261-273): filter the provided migrations,
validating each in order (the first invalid one throws out of the filter
callback) and keeping those whose id is not among previously completed ids. -/
def getPendingMigrations (rows : List MigRow) : List Migration →
    Except SDKError (List Migration)
  | [] => .ok []
  | m :: rest =>
    match validateMigration m with
    | .error e => .error e
    | .ok _ =>
      (getPendingMigrations rows rest).map (fun l =>
        if (completedIds rows).contains m.id then l else m :: l)

/-- `recordMigrationStart` (lines 372-385): insert a `running` row holding the
reverse script. -/
def recordMigrationStart (rows : List MigRow) (m : Migration) : List MigRow :=
  rows ++ [{ id := m.id, name := m.name, version := m.version, tenant_id := m.tenant_id
             status := .running, rollback_sql := m.down }]

/-- `recordMigrationCompletion` (lines 390-403):
`UPDATE migrations SET status='completed', duration_ms=? WHERE id = ?`. -/
def recordMigrationCompletion (rows : List MigRow) (m : Migration) (d : Nat) : List MigRow :=
  rows.map (fun r =>
    bif r.id == m.id then { r with status := .completed, duration_ms := some d } else r)

/-- `recordMigrationFailure` (lines 408-421):
`UPDATE migrations SET status='failed', error_message=?, duration_ms=? WHERE id = ?`. -/
def recordMigrationFailure (rows : List MigRow) (m : Migration) (msg : String) (d : Nat) :
    List MigRow :=
  rows.map (fun r =>
    bif r.id == m.id then
      { r with status := .failed, error_message := some msg, duration_ms := some d }
    else r)

/-- `runSingleMigration` (lines 292-330): record `running`, execute the
forward script, then record `completed` with the measured duration, or — when
the script throws — record `failed` with the error and the duration. -/
def runSingleMigration (env : MigEnv) (rows : List MigRow) (m : Migration) :
    MigrationResult × List MigRow :=
  let rows1 := recordMigrationStart rows m
  match env.exec m.up with
  | none =>
    ({ id := m.id, name := m.name, status := .completed, duration := some (env.dur m.id) },
      recordMigrationCompletion rows1 m (env.dur m.id))
  | some msg =>
    ({ id := m.id, name := m.name, status := .failed, duration := some (env.dur m.id)
       error := some msg },
      recordMigrationFailure rows1 m msg (env.dur m.id))

/-- The `for` loop of `runMigrations` (lines 93-101): run each pending
migration, collect its result, and `break` after the first `failed` result. -/
def runLoop (env : MigEnv) (rows : List MigRow) : List Migration →
    List MigrationResult × List MigRow
  | [] => ([], rows)
  | m :: rest =>
    let (res, rows1) := runSingleMigration env rows m
    if res.status == .failed then ([res], rows1)
    else
      let (more, rows2) := runLoop env rows1 rest
      (res :: more, rows2)

/-- `runMigrations` (lines 76-107): fail fast with the concurrency error while
the lock is held; otherwise acquire the lock, compute the pending subset, run
it with stop-on-first-failure, and release the lock in `finally` on every exit
path — also when `getPendingMigrations` throws. -/
def runMigrations (env : MigEnv) (s : MigState) (migrations : List Migration) :
    Except SDKError (List MigrationResult) × MigState :=
  if s.isLocked then (.error lockError, s)
  else
    match getPendingMigrations s.rows migrations with
    | .error e => (.error e, { rows := s.rows, isLocked := false })
    | .ok pending =>
      let (results, rows1) := runLoop env s.rows pending
      (.ok results, { rows := rows1, isLocked := false })

/-- `getMigrationsToRollback` (lines 278-287): completed rows with
`version > targetVersion`, ordered by version descending. -/
def getMigrationsToRollback (rows : List MigRow) (targetVersion : String) : List MigRow :=
  insertionSortBy (fun a b => !(strLtB a.version b.version))
    (rows.filter (fun r => strLtB targetVersion r.version && r.status == .completed))

/-- `rollbackSingleMigration` (lines 335-367): execute the stored reverse
script and delete the row, or report a `failed` result on exception. -/
def rollbackSingleMigration (env : MigEnv) (rows : List MigRow) (r : MigRow) :
    MigrationResult × List MigRow :=
  match env.exec r.rollback_sql with
  | none =>
    ({ id := r.id, name := r.name, status := .rolled_back, duration := some (env.dur r.id) },
      rows.filter (fun x => x.id != r.id))
  | some msg =>
    ({ id := r.id, name := r.name, status := .failed, duration := some (env.dur r.id)
       error := some msg },
      rows)

/-- The rollback loop of `rollbackTo` (lines 130-138), with the same
stop-on-first-failure shape as `runLoop`. -/
def rollbackLoop (env : MigEnv) (rows : List MigRow) : List MigRow →
    List MigrationResult × List MigRow
  | [] => ([], rows)
  | r :: rest =>
    let (res, rows1) := rollbackSingleMigration env rows r
    if res.status == .failed then ([res], rows1)
    else
      let (more, rows2) := rollbackLoop env rows1 rest
      (res :: more, rows2)

/-- `rollbackTo` (lines 112-144): the same lock guard, then the selected rows
are iterated in `migrationsToRollback.reverse()` order, and the lock is
released on every exit path. -/
def rollbackTo (env : MigEnv) (s : MigState) (targetVersion : String) :
    Except SDKError (List MigrationResult) × MigState :=
  if s.isLocked then (.error lockError, s)
  else
    let toRollback := getMigrationsToRollback s.rows targetVersion
    let (results, rows1) := rollbackLoop env s.rows toRollback.reverse
    (.ok results, { rows := rows1, isLocked := false })

end MigrationManager

/-! ## Data access facade (src/unnamed/part_005, class DataManagerV3) -/

/-- The `IDatabaseAdapter` surface the facade consumes, as the source receives
it by dependency injection. An `.error` value is a thrown `DataError`; an
`.ok` value with `data := none` is the adapters' non-throwing
`{ data: null, error }` result. -/
structure AdapterModel where
  create : DB → String → Fields → TenantContext → Except DataError (DataResult Record) × DB
  read : DB → String → QueryOptions → TenantContext → Except DataError (DataResult (List Record))
  update : DB → String → String → Fields → TenantContext →
    Except DataError (DataResult Record) × DB
  delete : DB → String → String → TenantContext → Except DataError (DataResult Unit) × DB
  bulkCreate : DB → String → List Fields → TenantContext →
    Except DataError (DataResult (List Record)) × DB

/-- The PostgreSQL adapter packaged behind the facade interface. -/
def pgAdapter : AdapterModel where
  create := PostgreSQLAdapter.create
  read := PostgreSQLAdapter.read
  update := PostgreSQLAdapter.update
  delete := PostgreSQLAdapter.delete
  bulkCreate := PostgreSQLAdapter.bulkCreate

/-- What the facade serialises into the cache: a single record
(`table:id` keys) or a query result list (`table:query:...` keys). JSON
deserialisation is untyped in the source; `asMany` / `asOne` state the
coercion each call site applies to whatever payload it finds. -/
inductive CVal where
  | one (r : Record)
  | many (rs : List Record)
deriving DecidableEq

/-- Read a cached payload as a record list (the `get<T[]>` call sites). -/
def CVal.asMany : CVal → List Record
  | .many rs => rs
  | .one r => [r]

/-- Read a cached payload as one record (the `get<T>` call sites). -/
def CVal.asOne : CVal → Option Record
  | .one r => some r
  | .many rs => rs.head?

/-- Options of `DataManagerV3.create` (`skipAnalytics` has no observable
effect in the model and is omitted). -/
structure CreateOptions where
  skipCache : Option Bool := none
  cacheTTL : Option Nat := none
deriving DecidableEq

/-- Cache options of `DataManagerV3.read`. -/
structure ReadCacheOptions where
  useCache : Option Bool := none
  cacheTTL : Option Nat := none
  cacheKey : Option String := none
deriving DecidableEq

/-- Options of `DataManagerV3.getById`. -/
structure GetByIdOptions where
  useCache : Option Bool := none
  cacheTTL : Option Nat := none
deriving DecidableEq

/-- Options of `DataManagerV3.update`. -/
structure UpdateOptions where
  skipCache : Option Bool := none
  invalidateCache : Option Bool := none
deriving DecidableEq

/-- Options of `DataManagerV3.delete`. -/
structure DeleteOptions where
  invalidateCache : Option Bool := none
deriving DecidableEq

/-- Options of `DataManagerV3.bulkCreate`. -/
structure BulkCreateOptions where
  batchSize : Option Nat := none
  skipCache : Option Bool := none
deriving DecidableEq

/-- Deterministic stand-in for `JSON.stringify(options)` in the facade's
query-cache keys. -/
def encodeFields (f : Fields) : String :=
  f.foldl (fun acc kv => acc ++ kv.1 ++ "=" ++ kv.2 ++ ";") ""

/-- Deterministic serialisation of `QueryOptions` (see `encodeFields`). -/
def encodeQueryOptions (o : QueryOptions) : String :=
  "f(" ++ encodeFields (o.filter.getD []) ++ ")o(" ++
    (match o.order with
     | some (col, asc) => col ++ (if asc then "+" else "-")
     | none => "") ++
    ")l(" ++ (match o.limit with | some n => toString n | none => "") ++
    ")s(" ++ (match o.offset with | some n => toString n | none => "") ++ ")"

/-- The data of an audit entry the facade assembles (the `old_values` /
`new_values` payloads are serialised strings here). -/
structure AuditInput where
  tenant_id : String
  user_id : String
  action : String
  resource_type : String
  resource_id : Option String := none
  old_values : Option String := none
  new_values : Option String := none

namespace DataManagerV3

/-- `createAuditLog` (part_005 lines 669-701): insert the entry through
`adapter.create('audit_logs', ..., systemContext)`, and swallow every failure
of that write (`try/catch` with a log only). `auditFails = true` is the run in
which the write throws; the catch leaves the store untouched and returns
normally. -/
def createAuditLog (A : AdapterModel) (auditFails : Bool) (db : DB) (e : AuditInput) : DB :=
  if auditFails then db
  else
    (A.create db "audit_logs"
      ([("user_id", e.user_id), ("action", e.action), ("resource_type", e.resource_type)] ++
        (match e.resource_id with | some i => [("resource_id", i)] | none => []) ++
        (match e.old_values with | some v => [("old_values", v)] | none => []) ++
        (match e.new_values with | some v => [("new_values", v)] | none => []))
      { tenant_id := e.tenant_id, user_id := e.user_id, role := "system"
        permissions := [] }).2

/-- Serialise a record for an audit `old_values`/`new_values` payload. -/
def encodeRecord (r : Record) : String :=
  r.id ++ "," ++ r.tenant_id ++ "," ++ encodeFields r.fields

/-- `create` (lines 24-103): adapter create; on success cache the record under
`table:id` (unless `skipCache`), write the audit entry, return the adapter's
result. A thrown `DataError` is rethrown by the catch. -/
def create (A : AdapterModel) (cfg : CacheConfig) (auditFails : Bool) (db : DB)
    (cache : Option (RedisCache CVal)) (table : String) (data : Fields)
    (context : TenantContext) (options : CreateOptions) :
    Except DataError (DataResult Record) × DB × Option (RedisCache CVal) :=
  match A.create db table data context with
  | (.error e, db1) => (.error e, db1, cache)
  | (.ok result, db1) =>
    match result.data with
    | some record =>
      let cache1 := match cache with
        | some c =>
          if options.skipCache = some true then some c
          else some (RedisCacheAdapter.set c cfg (table ++ ":" ++ record.id) context
            (CVal.one record) (some (jsOrN options.cacheTTL 3600)))
        | none => none
      let db2 := createAuditLog A auditFails db1
        { tenant_id := context.tenant_id, user_id := context.user_id, action := "CREATE"
          resource_type := table, resource_id := some record.id
          new_values := some (encodeFields data) }
      (.ok result, db2, cache1)
    | none => (.ok result, db1, cache)

/-- The cache key of `read`:
`cacheOptions?.cacheKey || table:query:JSON.stringify(options):tenant_id`. -/
def readCacheKey (table : String) (options : QueryOptions) (context : TenantContext)
    (cacheOptions : ReadCacheOptions) : String :=
  jsOrStr cacheOptions.cacheKey
    (table ++ ":query:" ++ encodeQueryOptions options ++ ":" ++ context.tenant_id)

/-- `read` (lines 108-188): when a cache provider is present and
`useCache !== false`, consult the cache first — a hit returns
`{ data: cached }` (no count); a miss delegates to the adapter and, when the
result has data, stores that data under the same key with
`cacheTTL || 300`. -/
def read (A : AdapterModel) (cfg : CacheConfig) (db : DB)
    (cache : Option (RedisCache CVal)) (table : String) (options : QueryOptions)
    (context : TenantContext) (cacheOptions : ReadCacheOptions) :
    Except DataError (DataResult (List Record)) × Option (RedisCache CVal) :=
  match cache with
  | none => (A.read db table options context, none)
  | some c =>
    if cacheOptions.useCache = some false then (A.read db table options context, some c)
    else
      let key := readCacheKey table options context cacheOptions
      match RedisCacheAdapter.get c cfg key context with
      | some v => (.ok { data := some v.asMany }, some c)
      | none =>
        match A.read db table options context with
        | .ok result =>
          let c1 := match result.data with
            | some l =>
              RedisCacheAdapter.set c cfg key context (CVal.many l)
                (some (jsOrN cacheOptions.cacheTTL 300))
            | none => c
          (.ok result, some c1)
        | .error e => (.error e, some c)

/-- `getById` (lines 383-452): cache lookup under `table:id`; on a miss,
`adapter.read` with `{ filter: { id }, limit: 1 }`, the first row (or `null`),
cached only when found. The adapter's non-throwing error result is swallowed
into `{ data: null }` by `result.data?.[0] || null`. -/
def getById (A : AdapterModel) (cfg : CacheConfig) (db : DB)
    (cache : Option (RedisCache CVal)) (table id : String) (context : TenantContext)
    (options : GetByIdOptions) :
    Except DataError (DataResult (Option Record)) × Option (RedisCache CVal) :=
  match cache with
  | none =>
    match A.read db table { filter := some [("id", id)], limit := some 1 } context with
    | .ok result => (.ok { data := some ((result.data.getD []).head?) }, none)
    | .error e => (.error e, none)
  | some c =>
    if options.useCache = some false then
      match A.read db table { filter := some [("id", id)], limit := some 1 } context with
      | .ok result => (.ok { data := some ((result.data.getD []).head?) }, some c)
      | .error e => (.error e, some c)
    else
      match RedisCacheAdapter.get c cfg (table ++ ":" ++ id) context with
      | some v => (.ok { data := some v.asOne }, some c)
      | none =>
        match A.read db table { filter := some [("id", id)], limit := some 1 } context with
        | .ok result =>
          match (result.data.getD []).head? with
          | some record =>
            (.ok { data := some (some record) },
              some (RedisCacheAdapter.set c cfg (table ++ ":" ++ id) context
                (CVal.one record) (some (jsOrN options.cacheTTL 3600))))
          | none => (.ok { data := some none }, some c)
        | .error e => (.error e, some c)

/-- `update` (lines 193-285): read the existing record for the audit trail,
adapter update; on success refresh the `table:id` cache entry (unless
`skipCache`), optionally `clearTenant`, write the audit entry, and return the
adapter's result. -/
def update (A : AdapterModel) (cfg : CacheConfig) (auditFails : Bool) (db : DB)
    (cache : Option (RedisCache CVal)) (table id : String) (updates : Fields)
    (context : TenantContext) (options : UpdateOptions) :
    Except DataError (DataResult Record) × DB × Option (RedisCache CVal) :=
  match A.read db table { filter := some [("id", id)] } context with
  | .error e => (.error e, db, cache)
  | .ok existingResult =>
    let existingRecord := (existingResult.data.getD []).head?
    match A.update db table id updates context with
    | (.error e, db1) => (.error e, db1, cache)
    | (.ok result, db1) =>
      match result.data with
      | some record =>
        let cache1 := match cache with
          | some c =>
            if options.skipCache = some true then some c
            else
              let c1 := RedisCacheAdapter.set c cfg (table ++ ":" ++ id) context
                (CVal.one record) (some 3600)
              if options.invalidateCache = some true then
                some (RedisCacheAdapter.clearTenant c1 cfg context.tenant_id)
              else some c1
          | none => none
        let db2 := createAuditLog A auditFails db1
          { tenant_id := context.tenant_id, user_id := context.user_id, action := "UPDATE"
            resource_type := table, resource_id := some id
            old_values := existingRecord.map encodeRecord
            new_values := some (encodeFields updates) }
        (.ok result, db2, cache1)
      | none => (.ok result, db1, cache)

/-- `delete` (lines 290-378): read the existing record for the audit trail,
adapter delete; the `result.data === undefined` success check gates the cache
removal of `table:id`, the optional `clearTenant`, and the audit entry. -/
def delete (A : AdapterModel) (cfg : CacheConfig) (auditFails : Bool) (db : DB)
    (cache : Option (RedisCache CVal)) (table id : String) (context : TenantContext)
    (options : DeleteOptions) :
    Except DataError (DataResult Unit) × DB × Option (RedisCache CVal) :=
  match A.read db table { filter := some [("id", id)] } context with
  | .error e => (.error e, db, cache)
  | .ok existingResult =>
    let existingRecord := (existingResult.data.getD []).head?
    match A.delete db table id context with
    | (.error e, db1) => (.error e, db1, cache)
    | (.ok result, db1) =>
      match result.data with
      | some _ =>
        let cache1 := match cache with
          | some c =>
            let c1 := RedisCacheAdapter.delete c cfg (table ++ ":" ++ id) context
            if options.invalidateCache = some true then
              some (RedisCacheAdapter.clearTenant c1 cfg context.tenant_id)
            else some c1
          | none => none
        let db2 := createAuditLog A auditFails db1
          { tenant_id := context.tenant_id, user_id := context.user_id, action := "DELETE"
            resource_type := table, resource_id := some id
            old_values := existingRecord.map encodeRecord }
        (.ok result, db2, cache1)
      | none => (.ok result, db1, cache)

/-- The batching of `bulkCreate`: `records.slice(i, i + batchSize)` chunks.
The source's `for (let i = 0; ...; i += batchSize)` loop never terminates when
`batchSize` is `0`; that artefact is out of the total model (the fuel guard
returns `[]`, and `batchSize` reaches this function through `|| 100`). -/
def chunkGo (n : Nat) : Nat → List α → List (List α)
  | 0, _ => []
  | _, [] => []
  | fuel + 1, x :: xs => (x :: xs).take n :: chunkGo n fuel ((x :: xs).drop n)

/-- `records` cut into consecutive batches of size `n`. -/
def chunkList (n : Nat) (l : List α) : List (List α) :=
  if n = 0 then [] else chunkGo n l.length l

/-- The batch loop of `bulkCreate` (lines 474-491): each batch goes through
`adapter.bulkCreate`; a batch whose result carries data contributes its
records (and caches each under `table:id`); a batch whose result is the
non-throwing `{ data: null, error }` is skipped silently and the loop
continues; a thrown `DataError` aborts the loop. -/
def bulkLoop (A : AdapterModel) (cfg : CacheConfig) (table : String)
    (context : TenantContext) (skipCache : Bool) :
    DB → Option (RedisCache CVal) → List (List Fields) →
    Except DataError (List Record) × DB × Option (RedisCache CVal)
  | db, cache, [] => (.ok [], db, cache)
  | db, cache, batch :: rest =>
    match A.bulkCreate db table batch context with
    | (.error e, db1) => (.error e, db1, cache)
    | (.ok batchResult, db1) =>
      match batchResult.data with
      | some created =>
        let cache1 := match cache with
          | some c =>
            if skipCache then some c
            else some (created.foldl (fun acc r =>
              RedisCacheAdapter.set acc cfg (table ++ ":" ++ r.id) context
                (CVal.one r) (some 3600)) c)
          | none => none
        match bulkLoop A cfg table context skipCache db1 cache1 rest with
        | (.ok more, db2, cache2) => (.ok (created ++ more), db2, cache2)
        | err => err
      | none => bulkLoop A cfg table context skipCache db1 cache rest

/-- `bulkCreate` (lines 457-553): batch loop, then one audit entry per record
actually returned, then `{ data: results }`. -/
def bulkCreate (A : AdapterModel) (cfg : CacheConfig) (auditFails : Bool) (db : DB)
    (cache : Option (RedisCache CVal)) (table : String) (records : List Fields)
    (context : TenantContext) (options : BulkCreateOptions) :
    Except DataError (DataResult (List Record)) × DB × Option (RedisCache CVal) :=
  let batchSize := jsOrN options.batchSize 100
  match bulkLoop A cfg table context (options.skipCache = some true) db cache
      (chunkList batchSize records) with
  | (.error e, db1, cache1) => (.error e, db1, cache1)
  | (.ok results, db1, cache1) =>
    let db2 := results.foldl (fun d r =>
      createAuditLog A auditFails d
        { tenant_id := context.tenant_id, user_id := context.user_id
          action := "BULK_CREATE", resource_type := table, resource_id := some r.id
          new_values := some (encodeRecord r) }) db1
    (.ok { data := some results }, db2, cache1)

end DataManagerV3

/-- A PostgreSQL-backed adapter whose backend rejects any batch containing the
`poison` column (the constraint-violation path of
`PostgreSQLAdapter.bulkCreate`, part_002 lines 276-278: the catch returns
`{ data: null, error }` instead of throwing). -/
def rejectingAdapter : AdapterModel :=
  { pgAdapter with
    bulkCreate := fun db table batch context =>
      if batch.any (fun fs => (fs.lookup "poison").isSome) then
        (.ok { data := none, error := some "insert or update violates constraint" }, db)
      else pgAdapter.bulkCreate db table batch context }

/-! ## Abbreviations and concrete fixtures used by the statements below -/

namespace MigrationManager

/-- The result `runSingleMigration` reports for a migration whose forward
script succeeded. -/
def completedResult (env : MigEnv) (m : Migration) : MigrationResult :=
  { id := m.id, name := m.name, status := .completed, duration := some (env.dur m.id) }

/-- The result `runSingleMigration` reports for the migration whose forward
script threw `msg`. -/
def failedResult (env : MigEnv) (m : Migration) (msg : String) : MigrationResult :=
  { id := m.id, name := m.name, status := .failed, duration := some (env.dur m.id)
    error := some msg }

/-- The `migrations`-table row left behind by a completed migration. -/
def completedRow (env : MigEnv) (m : Migration) : MigRow :=
  { id := m.id, name := m.name, version := m.version, tenant_id := m.tenant_id
    status := .completed, rollback_sql := m.down, duration_ms := some (env.dur m.id) }

/-- The `migrations`-table row left behind by the failed migration. -/
def failedRow (env : MigEnv) (m : Migration) (msg : String) : MigRow :=
  { id := m.id, name := m.name, version := m.version, tenant_id := m.tenant_id
    status := .failed, rollback_sql := m.down, error_message := some msg
    duration_ms := some (env.dur m.id) }

end MigrationManager

/-- The payload a facade read hands to its caller: the `data` of a returned
`DataResult`, or nothing when the call threw. -/
def resultData {α : Type} : Except DataError (DataResult α) → Option α
  | .ok r => r.data
  | .error _ => none

/-- A context of tenant `A`. -/
def ctxA : TenantContext :=
  { tenant_id := "A", user_id := "u1", role := "admin", permissions := [] }

/-- A context of tenant `B`. -/
def ctxB : TenantContext :=
  { tenant_id := "B", user_id := "u2", role := "admin", permissions := [] }

/-- A backend on which every change script succeeds, taking 3 ms. -/
def envAllOk : MigEnv := { exec := fun _ => none, dur := fun _ => 3 }

/-- A backend on which exactly the script `"BAD"` throws `"boom"`. -/
def envBad : MigEnv :=
  { exec := fun q => if q = "BAD" then some "boom" else none, dur := fun _ => 7 }

/-- Concrete migrations for the witness runs. -/
def mig1 : Migration := { id := "m1", name := "one", version := "1", up := "U1", down := "D1" }

def mig2bad : Migration :=
  { id := "m2", name := "two", version := "2", up := "BAD", down := "D2" }

def mig3 : Migration :=
  { id := "m3", name := "three", version := "3", up := "U3", down := "D3" }

/-- A store holding one record that belongs to tenant `B`. -/
def dbAcmeB : DB := { rows := [⟨"projects", ⟨"r1", "B", [("name", "Acme")]⟩⟩], nextId := 0 }

/-- A store holding one record that belongs to tenant `A`. -/
def dbOneA : DB := { rows := [⟨"projects", ⟨"r1", "A", [("name", "Acme")]⟩⟩], nextId := 0 }

/-- A store holding two records of tenant `A` in table `t`. -/
def dbTwoA : DB := { rows := [⟨"t", ⟨"r1", "A", []⟩⟩, ⟨"t", ⟨"r2", "A", []⟩⟩], nextId := 0 }

/-! ## General helper lemmas (strings, association lists, glob) -/

theorem dataAppend (a b : String) : (a ++ b).data = a.data ++ b.data := rfl

theorem stringDataInj {a b : String} (h : a.data = b.data) : a = b :=
  congrArg String.mk h

theorem colon_split : ∀ (a b k1 k2 : List Char), ':' ∉ a → ':' ∉ b →
    a ++ ':' :: k1 = b ++ ':' :: k2 → a = b ∧ k1 = k2 := by
  intro a
  induction a with
  | nil =>
    intro b k1 k2 _ hb h
    cases b with
    | nil => simpa using h
    | cons c bs =>
      simp only [List.nil_append, List.cons_append, List.cons.injEq] at h
      exact absurd (h.1 ▸ List.mem_cons_self ':' bs) hb
  | cons x xs ih =>
    intro b k1 k2 ha hb h
    cases b with
    | nil =>
      simp only [List.cons_append, List.nil_append, List.cons.injEq] at h
      exact absurd (h.1 ▸ List.mem_cons_self ':' xs) ha
    | cons y bs =>
      simp only [List.cons_append, List.cons.injEq] at h
      obtain ⟨hxy, ht⟩ := h
      have hr := ih bs k1 k2 (fun hm => ha (List.mem_cons_of_mem _ hm))
        (fun hm => hb (List.mem_cons_of_mem _ hm)) ht
      exact ⟨by rw [hxy, hr.1], hr.2⟩

theorem getTenantKey_data (cfg : CacheConfig) (key t : String) :
    (RedisCacheAdapter.getTenantKey cfg key t).data
    = ((jsOrStr cfg.keyPrefix "mt_sdk").data ++ (":tenant:" : String).data)
      ++ (t.data ++ ':' :: key.data) := by
  have hcolon : (":" : String).data = [':'] := rfl
  simp [RedisCacheAdapter.getTenantKey, dataAppend, hcolon, List.append_assoc]

theorem getTenantKey_inj (cfg : CacheConfig) {A B : String} (k1 k2 : String)
    (hAB : A ≠ B) (hA : ':' ∉ A.data) (hB : ':' ∉ B.data) :
    RedisCacheAdapter.getTenantKey cfg k1 A ≠ RedisCacheAdapter.getTenantKey cfg k2 B := by
  intro h
  have hd := congrArg String.data h
  rw [getTenantKey_data, getTenantKey_data] at hd
  have h2 := List.append_cancel_left hd
  exact hAB (stringDataInj (colon_split A.data B.data k1.data k2.data hA hB h2).1)

theorem lookup_mapset {β : Type} {k k0 : String} (v : β) (h : k ≠ k0) :
    ∀ l : List (String × β),
      (l.map (fun p => bif p.1 == k then (k, v) else p)).lookup k0 = l.lookup k0 := by
  have h1 : (k0 == k) = false := by
    rw [beq_eq_false_iff_ne]
    exact Ne.symm h
  intro l
  induction l with
  | nil => rfl
  | cons a as ih =>
    obtain ⟨a1, a2⟩ := a
    cases hak : (a1 == k) with
    | true =>
      have ha1 : a1 = k := by simpa using hak
      simp [List.lookup, hak, ha1, h1, ih]
    | false =>
      cases hk0 : (k0 == a1) with
      | true => simp [List.lookup, hak, hk0]
      | false => simp [List.lookup, hak, hk0, ih]

theorem lookup_append_single_ne {β : Type} {k k0 : String} (v : β) (h : k ≠ k0) :
    ∀ l : List (String × β), (l ++ [(k, v)]).lookup k0 = l.lookup k0 := by
  have h1 : (k0 == k) = false := by
    rw [beq_eq_false_iff_ne]
    exact Ne.symm h
  intro l
  induction l with
  | nil => simp [List.lookup, h1]
  | cons a as ih =>
    obtain ⟨a1, a2⟩ := a
    cases hk0 : (k0 == a1) with
    | true => simp [List.lookup, hk0]
    | false => simp [List.lookup, hk0, ih]

theorem lookup_setKey_ne {β : Type} {k k0 : String} (v : β) (h : k ≠ k0)
    (l : List (String × β)) : (setKey l k v).lookup k0 = l.lookup k0 := by
  unfold setKey
  split
  · exact lookup_mapset v h l
  · exact lookup_append_single_ne v h l

theorem tails_any_globNil (s : List Char) :
    s.tails.any (fun t => RedisCacheAdapter.globMatch [] t) = true := by
  induction s with
  | nil => rfl
  | cons c cs ih => simp [List.tails_cons, List.any_cons, ih]

theorem globMatch_litStar (lit : List Char) (h1 : '*' ∉ lit) (h2 : '?' ∉ lit) :
    ∀ s, RedisCacheAdapter.globMatch (lit ++ ['*']) s = lit.isPrefixOf s := by
  induction lit with
  | nil =>
    intro s
    simp [RedisCacheAdapter.globMatch, tails_any_globNil, List.isPrefixOf]
  | cons c cs ih =>
    have hc1 : c ≠ '*' := fun e => h1 (e ▸ List.mem_cons_self c cs)
    have hc2 : c ≠ '?' := fun e => h2 (e ▸ List.mem_cons_self c cs)
    have ih' := ih (fun hm => h1 (List.mem_cons_of_mem _ hm))
      (fun hm => h2 (List.mem_cons_of_mem _ hm))
    intro s
    cases s with
    | nil => simp [RedisCacheAdapter.globMatch, hc1, List.isPrefixOf]
    | cons d ds =>
      simp [RedisCacheAdapter.globMatch, hc1, hc2, List.isPrefixOf, ih' ds]

theorem not_leads_cross_tenant (p0 a b k : List Char) (ha : ':' ∉ a) (hb : ':' ∉ b)
    (hne : a ≠ b) :
    (p0 ++ (a ++ [':'])).isPrefixOf (p0 ++ (b ++ ':' :: k)) = false := by
  cases hp : (p0 ++ (a ++ [':'])).isPrefixOf (p0 ++ (b ++ ':' :: k)) with
  | false => rfl
  | true =>
    exfalso
    have hpref : (p0 ++ (a ++ [':'])) <+: (p0 ++ (b ++ ':' :: k)) := by
      rw [← List.isPrefixOf_iff_prefix]
      exact hp
    obtain ⟨t, ht⟩ := hpref
    rw [List.append_assoc] at ht
    have h2 := List.append_cancel_left ht
    rw [List.append_assoc, List.singleton_append] at h2
    exact hne (colon_split a b t k ha hb h2).1

theorem lookup_filter {β : Type} (p : String × β → Bool) (k0 : String)
    (h : ∀ v, p (k0, v) = true) :
    ∀ l : List (String × β), (l.filter p).lookup k0 = l.lookup k0 := by
  intro l
  induction l with
  | nil => rfl
  | cons a as ih =>
    obtain ⟨a1, a2⟩ := a
    cases hk0 : (k0 == a1) with
    | true =>
      have ha1 : k0 = a1 := by simpa using hk0
      have hp : p (a1, a2) = true := ha1 ▸ h a2
      simp [List.filter_cons, hp, List.lookup, hk0]
    | false =>
      cases hpa : p (a1, a2) with
      | true => simp [List.filter_cons, hpa, List.lookup, hk0, ih]
      | false => simp [List.filter_cons, hpa, List.lookup, hk0, ih]


/-- C3 (amended): the cache's physical key derivation is injective across
tenants, and a value stored under one tenant's context is never returned by a
lookup under another's, provided the tenant ids contain no `:` — the
separator of the key composition. Unrestricted injectivity, as the claim
states it, fails: see the counterexample. -/
theorem c3_tenant_key_isolation (cfg : CacheConfig) (A B k1 k2 : String)
    (hAB : A ≠ B) (hA : ':' ∉ A.data) (hB : ':' ∉ B.data) :
    RedisCacheAdapter.getTenantKey cfg k1 A ≠ RedisCacheAdapter.getTenantKey cfg k2 B ∧
    ∀ (c : RedisCache CVal) (v : CVal) (ttl : Option Nat) (ca cb : TenantContext),
      ca.tenant_id = A → cb.tenant_id = B →
      RedisCacheAdapter.get (RedisCacheAdapter.set c cfg k1 ca v ttl) cfg k2 cb
        = RedisCacheAdapter.get c cfg k2 cb ∧
      RedisCacheAdapter.existsKey (RedisCacheAdapter.set c cfg k1 ca v ttl) cfg k2 cb
        = RedisCacheAdapter.existsKey c cfg k2 cb := by
  refine ⟨getTenantKey_inj cfg k1 k2 hAB hA hB, ?_⟩
  intro c v ttl ca cb hca hcb
  constructor
  · simp only [RedisCacheAdapter.get, RedisCacheAdapter.set, hca, hcb]
    rw [lookup_setKey_ne _ (getTenantKey_inj cfg k1 k2 hAB hA hB)]
  · simp only [RedisCacheAdapter.existsKey, RedisCacheAdapter.set, hca, hcb]
    rw [lookup_setKey_ne _ (getTenantKey_inj cfg k1 k2 hAB hA hB)]

/-- Witness for C3: distinct colon-free tenants `a` and `b` at concrete
keys. -/
theorem c3_witness :
    RedisCacheAdapter.getTenantKey {} "x" "a" ≠ RedisCacheAdapter.getTenantKey {} "y" "b" ∧
    RedisCacheAdapter.get
        (RedisCacheAdapter.set ([] : RedisCache CVal) {} "x" ⟨"a", "u", "r", []⟩
          (CVal.many []) none) {} "y" ⟨"b", "u", "r", []⟩
      = RedisCacheAdapter.get ([] : RedisCache CVal) {} "y" ⟨"b", "u", "r", []⟩ := by
  have h := c3_tenant_key_isolation {} "a" "b" "x" "y" (by decide) (by decide) (by decide)
  exact ⟨h.1,
    (h.2 [] (CVal.many []) none ⟨"a", "u", "r", []⟩ ⟨"b", "u", "r", []⟩ rfl rfl).1⟩

/-- C3 counterexample: tenant ids may contain the separator, and then two
distinct tenants share a physical key: `(tenant "a", key "b:x")` and
`(tenant "a:b", key "x")` both derive `mt_sdk:tenant:a:b:x`. -/
theorem c3_counterexample :
    RedisCacheAdapter.getTenantKey {} "b:x" "a" = RedisCacheAdapter.getTenantKey {} "x" "a:b"
    ∧ ("a" : String) ≠ "a:b" := by decide

/-- C10 (amended): `clearTenant(A)` leaves every entry stored under another
tenant `B`'s physical key untouched — same value and TTL — provided the
tenant ids are colon-free and `A` and the configured namespace contain none
of the `KEYS` glob special characters (`*`, `?`, `[`, `\`), so that the
pattern stays inside `A`'s key space and the modelled matcher agrees with
Redis. The unrestricted claim fails: see the counterexample. -/
theorem c10_clearTenant_frame {α : Type} (cfg : CacheConfig) (A B k : String)
    (c : RedisCache α) (hAB : A ≠ B)
    (hA1 : ':' ∉ A.data) (hA2 : '*' ∉ A.data) (hA3 : '?' ∉ A.data)
    (_hA4 : '[' ∉ A.data) (_hA5 : '\\' ∉ A.data)
    (hB : ':' ∉ B.data)
    (hP1 : '*' ∉ (jsOrStr cfg.keyPrefix "mt_sdk").data)
    (hP2 : '?' ∉ (jsOrStr cfg.keyPrefix "mt_sdk").data)
    (_hP3 : '[' ∉ (jsOrStr cfg.keyPrefix "mt_sdk").data)
    (_hP4 : '\\' ∉ (jsOrStr cfg.keyPrefix "mt_sdk").data) :
    (RedisCacheAdapter.clearTenant c cfg A).lookup (RedisCacheAdapter.getTenantKey cfg k B)
      = c.lookup (RedisCacheAdapter.getTenantKey cfg k B) := by
  unfold RedisCacheAdapter.clearTenant
  apply lookup_filter
  intro v
  have hpat : (RedisCacheAdapter.getTenantKey cfg "*" A).data
      = (((jsOrStr cfg.keyPrefix "mt_sdk").data ++ (":tenant:" : String).data)
          ++ (A.data ++ [':'])) ++ ['*'] := by
    rw [getTenantKey_data]
    have hstar : ("*" : String).data = ['*'] := rfl
    rw [hstar]
    simp [List.append_assoc]
  rw [hpat, globMatch_litStar, getTenantKey_data]
  · rw [not_leads_cross_tenant _ _ _ _ hA1 hB (fun e => hAB (stringDataInj e))]
    rfl
  · intro hm
    simp only [List.mem_append, List.mem_singleton] at hm
    rcases hm with ((h | h) | (h | h))
    · exact hP1 h
    · exact absurd h (by decide)
    · exact hA2 h
    · exact absurd h (by decide)
  · intro hm
    simp only [List.mem_append, List.mem_singleton] at hm
    rcases hm with ((h | h) | (h | h))
    · exact hP2 h
    · exact absurd h (by decide)
    · exact hA3 h
    · exact absurd h (by decide)

/-- Witness for C10: clearing tenant `a` leaves tenant `b`'s concrete entry
(value and TTL) in place. -/
theorem c10_witness :
    (RedisCacheAdapter.clearTenant
        ([(RedisCacheAdapter.getTenantKey {} "k" "b", ⟨"v", 60⟩)] : RedisCache String)
        {} "a").lookup (RedisCacheAdapter.getTenantKey {} "k" "b")
      = ([(RedisCacheAdapter.getTenantKey {} "k" "b", ⟨"v", 60⟩)] : RedisCache String).lookup
          (RedisCacheAdapter.getTenantKey {} "k" "b") :=
  c10_clearTenant_frame {} "a" "b" "k" _ (by decide) (by decide) (by decide) (by decide)
    (by decide) (by decide) (by decide) (by decide) (by decide) (by decide) (by decide)

/-- C10 counterexample: clearing tenant `a` deletes the entry that tenant
`a:b` — a different tenant id — stored under logical key `k`, because the
glob pattern `mt_sdk:tenant:a:*` matches `mt_sdk:tenant:a:b:k`. -/
theorem c10_counterexample :
    (RedisCacheAdapter.clearTenant
        ([(RedisCacheAdapter.getTenantKey {} "k" "a:b", ⟨"v", 60⟩)] : RedisCache String)
        {} "a").lookup (RedisCacheAdapter.getTenantKey {} "k" "a:b") = none
    ∧ ([(RedisCacheAdapter.getTenantKey {} "k" "a:b", ⟨"v", 60⟩)] : RedisCache String).lookup
        (RedisCacheAdapter.getTenantKey {} "k" "a:b") = some ⟨"v", 60⟩
    ∧ ("a:b" : String) ≠ "a" := by decide

/-! ## Migration engine lemmas and claims C4, C5, C6 -/

theorem mapIdOn {α : Type} (f : α → α) :
    ∀ l : List α, (∀ a ∈ l, f a = a) → l.map f = l := by
  intro l
  induction l with
  | nil => intro _; rfl
  | cons a as ih =>
    intro h
    simp only [List.map_cons, h a (List.mem_cons_self a as),
      ih (fun x hx => h x (List.mem_cons_of_mem a hx))]

namespace MigrationManager

theorem completion_append_fresh (env : MigEnv) (rows : List MigRow) (m : Migration)
    (hfresh : ∀ r ∈ rows, r.id ≠ m.id) :
    recordMigrationCompletion (recordMigrationStart rows m) m (env.dur m.id)
      = rows ++ [completedRow env m] := by
  unfold recordMigrationStart recordMigrationCompletion
  rw [List.map_append]
  congr 1
  · apply mapIdOn
    intro r hr
    have : (r.id == m.id) = false := by
      rw [beq_eq_false_iff_ne]
      exact hfresh r hr
    simp [this]
  · simp [completedRow]

theorem failure_append_fresh (env : MigEnv) (rows : List MigRow) (m : Migration)
    (msg : String) (hfresh : ∀ r ∈ rows, r.id ≠ m.id) :
    recordMigrationFailure (recordMigrationStart rows m) m msg (env.dur m.id)
      = rows ++ [failedRow env m msg] := by
  unfold recordMigrationStart recordMigrationFailure
  rw [List.map_append]
  congr 1
  · apply mapIdOn
    intro r hr
    have : (r.id == m.id) = false := by
      rw [beq_eq_false_iff_ne]
      exact hfresh r hr
    simp [this]
  · simp [failedRow]

theorem mem_completedIds_iff (rows : List MigRow) (x : String) :
    x ∈ completedIds rows ↔ ∃ r ∈ rows, r.status = .completed ∧ r.id = x := by
  simp [completedIds, List.mem_map, List.mem_filter, and_assoc]

theorem mem_completedIds_start (rows : List MigRow) (m : Migration) (x : String)
    (hx : x ∈ completedIds rows) : x ∈ completedIds (recordMigrationStart rows m) := by
  rw [mem_completedIds_iff] at hx ⊢
  obtain ⟨r, hr, hc, hid⟩ := hx
  exact ⟨r, List.mem_append_left _ hr, hc, hid⟩

theorem mem_completedIds_completion (rows : List MigRow) (m : Migration) (d : Nat)
    (x : String) (hx : x ∈ completedIds rows) :
    x ∈ completedIds (recordMigrationCompletion rows m d) := by
  rw [mem_completedIds_iff] at hx ⊢
  obtain ⟨r, hr, hc, hid⟩ := hx
  refine ⟨bif r.id == m.id then { r with status := .completed, duration_ms := some d } else r,
    List.mem_map_of_mem _ hr, ?_⟩
  cases hb : (r.id == m.id) <;> simp [hb, hc, hid]

theorem mem_completedIds_self (env : MigEnv) (rows : List MigRow) (m : Migration) :
    m.id ∈ completedIds
      (recordMigrationCompletion (recordMigrationStart rows m) m (env.dur m.id)) := by
  rw [mem_completedIds_iff]
  refine ⟨{ id := m.id, name := m.name, version := m.version, tenant_id := m.tenant_id
            status := .completed, rollback_sql := m.down
            duration_ms := some (env.dur m.id) }, ?_, rfl, rfl⟩
  unfold recordMigrationCompletion recordMigrationStart
  rw [List.map_append]
  apply List.mem_append_right
  simp

theorem runLoop_success (env : MigEnv) :
    ∀ (pending : List Migration), (∀ m ∈ pending, env.exec m.up = none) →
    ∀ rows : List MigRow,
      (∀ x ∈ completedIds rows, x ∈ completedIds (runLoop env rows pending).2)
      ∧ (∀ m ∈ pending, m.id ∈ completedIds (runLoop env rows pending).2) := by
  intro pending
  induction pending with
  | nil => intro _ rows; exact ⟨fun x hx => hx, fun m hm => absurd hm (List.not_mem_nil m)⟩
  | cons m rest ih =>
    intro hup rows
    have hm := hup m (List.mem_cons_self m rest)
    have ih' := ih (fun x hx => hup x (List.mem_cons_of_mem m hx))
    simp only [runLoop, runSingleMigration, hm]
    rw [if_neg (by decide : ¬((MigrationStatus.completed == MigrationStatus.failed) = true))]
    set rows1 := recordMigrationCompletion (recordMigrationStart rows m) m (env.dur m.id)
      with hrows1
    constructor
    · intro x hx
      exact (ih' rows1).1 x
        (mem_completedIds_completion _ m _ x (mem_completedIds_start rows m x hx))
    · intro m' hm'
      rcases List.mem_cons.mp hm' with he | hr
      · subst he
        exact (ih' rows1).1 m'.id (mem_completedIds_self env rows m')
      · exact (ih' rows1).2 m' hr

theorem getPending_ok (rows : List MigRow) :
    ∀ ms : List Migration, (∀ m ∈ ms, validateMigration m = .ok ()) →
    getPendingMigrations rows ms
      = .ok (ms.filter (fun m => !((completedIds rows).contains m.id))) := by
  intro ms
  induction ms with
  | nil => intro _; rfl
  | cons m rest ih =>
    intro hval
    have hv := hval m (List.mem_cons_self m rest)
    have ih' := ih (fun x hx => hval x (List.mem_cons_of_mem m hx))
    simp only [getPendingMigrations, hv, ih', Except.map, List.filter_cons]
    cases hc : (completedIds rows).contains m.id <;> simp [hc]

theorem getPending_nil (rows : List MigRow) (ms : List Migration)
    (hval : ∀ m ∈ ms, validateMigration m = .ok ())
    (hdone : ∀ m ∈ ms, m.id ∈ completedIds rows) :
    getPendingMigrations rows ms = .ok [] := by
  rw [getPending_ok rows ms hval]
  congr 1
  rw [List.filter_eq_nil_iff]
  intro m hm
  simp [List.contains, List.elem_iff, hdone m hm]

end MigrationManager

namespace MigrationManager

/-- C4: `runMigrations` is idempotent by migration id. The pending subset is
exactly the provided migrations whose id is not among previously completed
ids; and after a successful run of a set of valid migrations, running the
same set again executes zero forward scripts (`.ok []`) and leaves the
recorded migration table unchanged. -/
theorem c4_runMigrations_idempotent (env : MigEnv) (s : MigState) (ms : List Migration)
    (hlock : s.isLocked = false)
    (hval : ∀ m ∈ ms, validateMigration m = .ok ())
    (hup : ∀ m ∈ ms, env.exec m.up = none) :
    getPendingMigrations s.rows ms
      = .ok (ms.filter (fun m => !((completedIds s.rows).contains m.id))) ∧
    (runMigrations env (runMigrations env s ms).2 ms).1 = .ok [] ∧
    (runMigrations env (runMigrations env s ms).2 ms).2.rows
      = (runMigrations env s ms).2.rows := by
  have hpend := getPending_ok s.rows ms hval
  set pending := ms.filter (fun m => !((completedIds s.rows).contains m.id)) with hp
  have hup' : ∀ m ∈ pending, env.exec m.up = none :=
    fun m hm => hup m (List.mem_filter.mp hm).1
  have hloop := runLoop_success env pending hup' s.rows
  have hfirst : runMigrations env s ms
      = (.ok (runLoop env s.rows pending).1,
         { rows := (runLoop env s.rows pending).2, isLocked := false }) := by
    simp [runMigrations, hlock, hpend]
  have hdone : ∀ m ∈ ms, m.id ∈ completedIds (runLoop env s.rows pending).2 := by
    intro m hm
    by_cases hc : m.id ∈ completedIds s.rows
    · exact hloop.1 m.id hc
    · apply hloop.2 m
      rw [hp, List.mem_filter]
      refine ⟨hm, ?_⟩
      simp [List.contains, List.elem_iff, hc]
  refine ⟨hpend, ?_, ?_⟩ <;>
    rw [hfirst] <;>
    simp [runMigrations, getPending_nil _ ms hval hdone, runLoop]

/-- The execution loop on a pending list `l1 ++ mf :: l2` whose first failure
is `mf`: it reports exactly `l1`'s completed results followed by `mf`'s
failed result, and appends exactly `l1`'s completed rows and `mf`'s failed
row — nothing of `l2` is attempted. -/
theorem runLoop_split (env : MigEnv) (mf : Migration) (msg : String)
    (hfail : env.exec mf.up = some msg) (l2 : List Migration) :
    ∀ (l1 : List Migration) (rows : List MigRow),
      (∀ m ∈ l1, env.exec m.up = none) →
      (∀ m ∈ l1 ++ [mf], ∀ r ∈ rows, r.id ≠ m.id) →
      ((l1 ++ [mf]).map (fun m => m.id)).Nodup →
      runLoop env rows (l1 ++ mf :: l2)
        = (l1.map (completedResult env) ++ [failedResult env mf msg],
           rows ++ l1.map (completedRow env) ++ [failedRow env mf msg]) := by
  intro l1
  induction l1 with
  | nil =>
    intro rows _ hfresh _
    have hfreshf : ∀ r ∈ rows, r.id ≠ mf.id :=
      fun r hr => hfresh mf (List.mem_cons_self mf []) r hr
    simp only [List.nil_append, runLoop, runSingleMigration, hfail,
      failure_append_fresh env rows mf msg hfreshf]
    rw [if_pos (by decide : (MigrationStatus.failed == MigrationStatus.failed) = true)]
    simp [failedResult]
  | cons m l1' ih =>
    intro rows hok hfresh hnodup
    have hm := hok m (List.mem_cons_self m l1')
    have hfreshm : ∀ r ∈ rows, r.id ≠ m.id :=
      fun r hr => hfresh m (List.mem_cons_self m (l1' ++ [mf])) r hr
    simp only [List.cons_append, runLoop, runSingleMigration, hm,
      completion_append_fresh env rows m hfreshm]
    rw [if_neg (by decide : ¬((MigrationStatus.completed == MigrationStatus.failed) = true))]
    have hnd := hnodup
    rw [List.cons_append, List.map_cons, List.nodup_cons] at hnd
    have hfresh' : ∀ m' ∈ l1' ++ [mf], ∀ r ∈ rows ++ [completedRow env m], r.id ≠ m'.id := by
      intro m' hm' r hr
      rcases List.mem_append.mp hr with hr1 | hr2
      · exact hfresh m' (List.mem_cons_of_mem m hm') r hr1
      · rw [List.mem_singleton.mp hr2]
        intro he
        apply hnd.1
        rw [show m.id = m'.id from he]
        exact List.mem_map_of_mem (fun m => m.id) hm'
    rw [List.append_eq] at *
    rw [ih (rows ++ [completedRow env m])
      (fun x hx => hok x (List.mem_cons_of_mem m hx)) hfresh' hnd.2]
    simp [completedResult, List.append_assoc]

/-- C5: during a `runMigrations` batch, the first failure stops the batch:
with pending subset `l1 ++ [mf] ++ l2` where every migration of `l1`
succeeds and `mf`'s forward script throws `msg`, the run returns `l1`'s
completed results (each with its duration) followed by `mf`'s failed result
(with the error), records exactly those rows, and never attempts `l2`. -/
theorem c5_first_failure_stops_batch (env : MigEnv) (s : MigState) (ms : List Migration)
    (l1 : List Migration) (mf : Migration) (l2 : List Migration) (msg : String)
    (hlock : s.isLocked = false)
    (hpend : getPendingMigrations s.rows ms = .ok (l1 ++ mf :: l2))
    (hok : ∀ m ∈ l1, env.exec m.up = none)
    (hfail : env.exec mf.up = some msg)
    (hfresh : ∀ m ∈ l1 ++ [mf], ∀ r ∈ s.rows, r.id ≠ m.id)
    (hnodup : ((l1 ++ [mf]).map (fun m => m.id)).Nodup) :
    (runMigrations env s ms).1
      = .ok (l1.map (completedResult env) ++ [failedResult env mf msg]) ∧
    (runMigrations env s ms).2.rows
      = s.rows ++ l1.map (completedRow env) ++ [failedRow env mf msg] := by
  simp [runMigrations, hlock, hpend,
    runLoop_split env mf msg hfail l2 l1 s.rows hok hfresh hnodup]

theorem validate_ne_lockError (m : Migration) (e : SDKError)
    (h : validateMigration m = .error e) : e ≠ lockError := by
  unfold validateMigration at h
  split at h <;> try split at h
  all_goals first
    | (injection h with he; rw [← he]; decide)
    | (split at h <;> first
        | (injection h with he; rw [← he]; decide)
        | (split at h <;> first
            | (injection h with he; rw [← he]; decide)
            | exact absurd h (by simp)))

theorem getPending_ne_lockError (rows : List MigRow) :
    ∀ ms : List Migration, getPendingMigrations rows ms ≠ .error lockError := by
  intro ms
  induction ms with
  | nil => intro h; exact absurd h (by simp [getPendingMigrations])
  | cons m rest ih =>
    intro h
    unfold getPendingMigrations at h
    revert h
    cases hv : validateMigration m with
    | error e =>
      intro h
      injection h with he
      exact validate_ne_lockError m e hv he
    | ok _ =>
      cases hrec : getPendingMigrations rows rest with
      | error e =>
        intro h
        simp only [hrec, Except.map] at h
        injection h with he
        exact ih (he ▸ hrec)
      | ok l =>
        intro h
        simp [hrec, Except.map] at h

theorem runMigrations_unlocks (env : MigEnv) (s : MigState) (ms : List Migration)
    (h : s.isLocked = false) : (runMigrations env s ms).2.isLocked = false := by
  unfold runMigrations
  rw [if_neg (by simp [h])]
  cases hp : getPendingMigrations s.rows ms <;> simp

theorem rollbackTo_unlocks (env : MigEnv) (s : MigState) (target : String)
    (h : s.isLocked = false) : (rollbackTo env s target).2.isLocked = false := by
  unfold rollbackTo
  rw [if_neg (by simp [h])]

theorem runMigrations_ne_lockError (env : MigEnv) (s : MigState) (ms : List Migration)
    (h : s.isLocked = false) : (runMigrations env s ms).1 ≠ .error lockError := by
  unfold runMigrations
  rw [if_neg (by simp [h])]
  cases hp : getPendingMigrations s.rows ms with
  | error e =>
    intro hcontra
    simp only [] at hcontra
    injection hcontra with he
    exact getPending_ne_lockError _ ms (he ▸ hp)
  | ok l => simp

/-- C6: the migration run lock is exclusive and always released. While the
lock is held, `runMigrations` and `rollbackTo` fail immediately with the
concurrency error and change nothing; from an unlocked state both leave the
engine unlocked on every exit path (the validation-error path of
`getPendingMigrations` included), and a subsequent run is admitted — it can
never fail with the lock error. -/
theorem c6_lock_exclusive_released (env : MigEnv) (s : MigState)
    (ms ms2 : List Migration) (target : String) :
    (s.isLocked = true →
      runMigrations env s ms = (.error lockError, s) ∧
      rollbackTo env s target = (.error lockError, s)) ∧
    (s.isLocked = false →
      (runMigrations env s ms).2.isLocked = false ∧
      (rollbackTo env s target).2.isLocked = false ∧
      (runMigrations env (runMigrations env s ms).2 ms2).1 ≠ .error lockError) := by
  constructor
  · intro h
    exact ⟨by simp [runMigrations, h], by simp [rollbackTo, h]⟩
  · intro h
    exact ⟨runMigrations_unlocks env s ms h, rollbackTo_unlocks env s target h,
      runMigrations_ne_lockError env _ ms2 (runMigrations_unlocks env s ms h)⟩

end MigrationManager


/-- Witness for C4 at a concrete two-migration set over an empty migration
table. -/
theorem c4_witness :
    MigrationManager.getPendingMigrations ([] : List MigRow) [mig1, mig3]
      = .ok ([mig1, mig3].filter (fun m =>
          !((MigrationManager.completedIds ([] : List MigRow)).contains m.id))) ∧
    (MigrationManager.runMigrations envAllOk
        (MigrationManager.runMigrations envAllOk ⟨[], false⟩ [mig1, mig3]).2 [mig1, mig3]).1
      = .ok [] ∧
    (MigrationManager.runMigrations envAllOk
        (MigrationManager.runMigrations envAllOk ⟨[], false⟩ [mig1, mig3]).2
        [mig1, mig3]).2.rows
      = (MigrationManager.runMigrations envAllOk ⟨[], false⟩ [mig1, mig3]).2.rows :=
  MigrationManager.c4_runMigrations_idempotent envAllOk ⟨[], false⟩ [mig1, mig3] rfl
    (by decide) (by decide)

/-- Witness for C5: of `[M1, M2, M3]` with `M2`'s script throwing, `M1` is
recorded completed, `M2` failed, and `M3` is never attempted. -/
theorem c5_witness :
    (MigrationManager.runMigrations envBad ⟨[], false⟩ [mig1, mig2bad, mig3]).1
      = .ok ([mig1].map (MigrationManager.completedResult envBad)
          ++ [MigrationManager.failedResult envBad mig2bad "boom"]) ∧
    (MigrationManager.runMigrations envBad ⟨[], false⟩ [mig1, mig2bad, mig3]).2.rows
      = [] ++ [mig1].map (MigrationManager.completedRow envBad)
          ++ [MigrationManager.failedRow envBad mig2bad "boom"] :=
  MigrationManager.c5_first_failure_stops_batch envBad ⟨[], false⟩ [mig1, mig2bad, mig3]
    [mig1] mig2bad [mig3] "boom" rfl (by decide) (by decide) (by decide) (by decide)
    (by decide)

/-- Witness for C6 at concrete locked and unlocked states. -/
theorem c6_witness :
    MigrationManager.runMigrations envAllOk ⟨[], true⟩ [mig1]
      = (.error MigrationManager.lockError, ⟨[], true⟩) ∧
    MigrationManager.rollbackTo envAllOk ⟨[], true⟩ "0"
      = (.error MigrationManager.lockError, ⟨[], true⟩) ∧
    (MigrationManager.runMigrations envAllOk ⟨[], false⟩ [mig1]).2.isLocked = false ∧
    (MigrationManager.rollbackTo envAllOk ⟨[], false⟩ "0").2.isLocked = false ∧
    (MigrationManager.runMigrations envAllOk
        (MigrationManager.runMigrations envAllOk ⟨[], false⟩ [mig1]).2 [mig3]).1
      ≠ .error MigrationManager.lockError := by
  have h1 := (MigrationManager.c6_lock_exclusive_released envAllOk ⟨[], true⟩
    [mig1] [mig3] "0").1 rfl
  have h2 := (MigrationManager.c6_lock_exclusive_released envAllOk ⟨[], false⟩
    [mig1] [mig3] "0").2 rfl
  exact ⟨h1.1, h1.2, h2.1, h2.2.1, h2.2.2⟩

/-! ## Facade lemmas and claims C1, C2, C7, C8, C9 -/

theorem lookup_mapset_self {β : Type} {k : String} (v : β) :
    ∀ l : List (String × β), l.any (fun p => p.1 == k) = true →
      (l.map (fun p => bif p.1 == k then (k, v) else p)).lookup k = some v := by
  intro l
  induction l with
  | nil => intro h; simp at h
  | cons a as ih =>
    intro h
    obtain ⟨a1, a2⟩ := a
    cases hak : (a1 == k) with
    | true => simp [List.lookup, hak]
    | false =>
      have hk : (k == a1) = false := by
        rw [beq_eq_false_iff_ne]
        rw [beq_eq_false_iff_ne] at hak
        exact Ne.symm hak
      simp only [List.any_cons, hak, Bool.false_or] at h
      simp [List.lookup, hak, hk, ih h]

theorem lookup_append_self {β : Type} {k : String} (v : β) :
    ∀ l : List (String × β), l.any (fun p => p.1 == k) = false →
      (l ++ [(k, v)]).lookup k = some v := by
  intro l
  induction l with
  | nil => simp [List.lookup]
  | cons a as ih =>
    intro h
    obtain ⟨a1, a2⟩ := a
    simp only [List.any_cons, Bool.or_eq_false_iff] at h
    have hk : (k == a1) = false := by
      rw [beq_eq_false_iff_ne]
      have := h.1
      rw [beq_eq_false_iff_ne] at this
      exact Ne.symm this
    simp [List.lookup, hk, ih (by simpa using h.2)]

theorem lookup_setKey_self {β : Type} (l : List (String × β)) (k : String) (v : β) :
    (setKey l k v).lookup k = some v := by
  unfold setKey
  cases h : l.any (fun p => p.1 == k) with
  | true => rw [if_pos rfl]; exact lookup_mapset_self v l h
  | false => rw [if_neg (by simp)]; exact lookup_append_self v l h

theorem redisGet_after_set {α : Type} (c : RedisCache α) (cfg : CacheConfig)
    (key : String) (context : TenantContext) (v : α) (ttl : Option Nat) :
    RedisCacheAdapter.get (RedisCacheAdapter.set c cfg key context v ttl) cfg key context
      = some v := by
  simp [RedisCacheAdapter.get, RedisCacheAdapter.set, lookup_setKey_self]

theorem pgRead_shape (db : DB) (table : String) (opts : QueryOptions) (ctx : TenantContext)
    (hlim : opts.limit = none) (hoff : opts.offset = none) :
    ∃ l, PostgreSQLAdapter.read db table opts ctx
      = .ok { data := some l, error := none, count := none } := by
  unfold PostgreSQLAdapter.read
  rw [hlim, hoff]
  exact ⟨_, rfl⟩

theorem read_miss_eq (A : AdapterModel) (cfg : CacheConfig) (db : DB) (c : RedisCache CVal)
    (table : String) (opts : QueryOptions) (ctx : TenantContext) (copts : ReadCacheOptions)
    (hmiss : RedisCacheAdapter.get c cfg (DataManagerV3.readCacheKey table opts ctx copts) ctx
      = none) :
    (DataManagerV3.read A cfg db (some c) table opts ctx copts).1
      = (DataManagerV3.read A cfg db none table opts ctx copts).1 := by
  by_cases hu : copts.useCache = some false
  · simp [DataManagerV3.read, hu]
  · simp only [DataManagerV3.read, if_neg hu, hmiss]
    cases hA : A.read db table opts ctx with
    | error e => simp
    | ok result => cases hd : result.data <;> simp [hd]

theorem read_repeat_data (A : AdapterModel) (cfg : CacheConfig) (db : DB)
    (cache : Option (RedisCache CVal)) (table : String) (opts : QueryOptions)
    (ctx : TenantContext) (copts : ReadCacheOptions) :
    resultData ((DataManagerV3.read A cfg db
        (DataManagerV3.read A cfg db cache table opts ctx copts).2 table opts ctx copts).1)
      = resultData ((DataManagerV3.read A cfg db cache table opts ctx copts).1) := by
  cases cache with
  | none => rfl
  | some c =>
    by_cases hu : copts.useCache = some false
    · simp [DataManagerV3.read, hu]
    · simp only [DataManagerV3.read, if_neg hu]
      cases hget : RedisCacheAdapter.get c cfg
          (DataManagerV3.readCacheKey table opts ctx copts) ctx with
      | some v => simp [hget, if_neg hu]
      | none =>
        cases hA : A.read db table opts ctx with
        | error e => simp [hget, hA, if_neg hu]
        | ok result =>
          cases hd : result.data with
          | none => simp [hget, hA, hd, resultData, if_neg hu]
          | some l =>
            simp only [hget, hA, hd, if_neg hu, redisGet_after_set, resultData]
            simp [CVal.asMany]

theorem read_repeat_pg (cfg : CacheConfig) (db : DB) (cache : Option (RedisCache CVal))
    (table : String) (opts : QueryOptions) (ctx : TenantContext) (copts : ReadCacheOptions)
    (hlim : opts.limit = none) (hoff : opts.offset = none) :
    (DataManagerV3.read pgAdapter cfg db
        (DataManagerV3.read pgAdapter cfg db cache table opts ctx copts).2
        table opts ctx copts).1
      = (DataManagerV3.read pgAdapter cfg db cache table opts ctx copts).1 := by
  obtain ⟨l, hA⟩ := pgRead_shape db table opts ctx hlim hoff
  cases cache with
  | none => rfl
  | some c =>
    by_cases hu : copts.useCache = some false
    · simp [DataManagerV3.read, hu]
    · simp only [DataManagerV3.read, if_neg hu]
      cases hget : RedisCacheAdapter.get c cfg
          (DataManagerV3.readCacheKey table opts ctx copts) ctx with
      | some v => simp [hget, if_neg hu]
      | none =>
        have hA' : pgAdapter.read db table opts ctx
            = .ok { data := some l, error := none, count := none } := hA
        simp only [hget, hA', if_neg hu, redisGet_after_set]
        simp [CVal.asMany]

theorem getById_miss_eq (A : AdapterModel) (cfg : CacheConfig) (db : DB)
    (c : RedisCache CVal) (table id : String) (ctx : TenantContext) (gopts : GetByIdOptions)
    (hmiss : RedisCacheAdapter.get c cfg (table ++ ":" ++ id) ctx = none) :
    (DataManagerV3.getById A cfg db (some c) table id ctx gopts).1
      = (DataManagerV3.getById A cfg db none table id ctx gopts).1 := by
  by_cases hu : gopts.useCache = some false
  · simp only [DataManagerV3.getById, if_pos hu]
    cases hA : A.read db table { filter := some [("id", id)], limit := some 1 } ctx <;> simp
  · simp only [DataManagerV3.getById, if_neg hu, hmiss]
    cases hA : A.read db table { filter := some [("id", id)], limit := some 1 } ctx with
    | error e => simp
    | ok result => cases hd : (result.data.getD []).head? <;> simp [hd]

theorem getById_repeat (A : AdapterModel) (cfg : CacheConfig) (db : DB)
    (cache : Option (RedisCache CVal)) (table id : String) (ctx : TenantContext)
    (gopts : GetByIdOptions) :
    (DataManagerV3.getById A cfg db
        (DataManagerV3.getById A cfg db cache table id ctx gopts).2 table id ctx gopts).1
      = (DataManagerV3.getById A cfg db cache table id ctx gopts).1 := by
  cases cache with
  | none =>
    simp only [DataManagerV3.getById]
    cases hA : A.read db table { filter := some [("id", id)], limit := some 1 } ctx <;> simp
  | some c =>
    by_cases hu : gopts.useCache = some false
    · simp only [DataManagerV3.getById, if_pos hu]
      cases hA : A.read db table { filter := some [("id", id)], limit := some 1 } ctx <;> simp
    · simp only [DataManagerV3.getById, if_neg hu]
      cases hget : RedisCacheAdapter.get c cfg (table ++ ":" ++ id) ctx with
      | some v => simp [hget, if_neg hu]
      | none =>
        cases hA : A.read db table { filter := some [("id", id)], limit := some 1 } ctx with
        | error e => simp [hget, hA, if_neg hu]
        | ok result =>
          cases hd : (result.data.getD []).head? with
          | none => simp [hget, hA, hd, if_neg hu]
          | some record =>
            simp only [hget, hA, hd, if_neg hu, redisGet_after_set]
            simp [CVal.asOne]

/-- C9: audit-log write failures are never propagated: for every adapter,
store, cache state and options, each mutating facade operation (create,
update, delete, bulkCreate) returns exactly the same result whether the audit
write succeeds or throws — no error from the audit write reaches the
caller. -/
theorem c9_audit_failure_not_propagated (A : AdapterModel) (cfg : CacheConfig) (db : DB)
    (cache : Option (RedisCache CVal)) (table id : String) (data updates : Fields)
    (records : List Fields) (context : TenantContext) (copts : CreateOptions)
    (uopts : UpdateOptions) (dopts : DeleteOptions) (bopts : BulkCreateOptions) :
    (DataManagerV3.create A cfg true db cache table data context copts).1
      = (DataManagerV3.create A cfg false db cache table data context copts).1 ∧
    (DataManagerV3.update A cfg true db cache table id updates context uopts).1
      = (DataManagerV3.update A cfg false db cache table id updates context uopts).1 ∧
    (DataManagerV3.delete A cfg true db cache table id context dopts).1
      = (DataManagerV3.delete A cfg false db cache table id context dopts).1 ∧
    (DataManagerV3.bulkCreate A cfg true db cache table records context bopts).1
      = (DataManagerV3.bulkCreate A cfg false db cache table records context bopts).1 := by
  refine ⟨?_, ?_, ?_, ?_⟩
  · unfold DataManagerV3.create
    rcases hAC : A.create db table data context with ⟨r, db1⟩
    cases r with
    | error e => simp [hAC]
    | ok result => cases hd : result.data <;> simp [hAC, hd]
  · unfold DataManagerV3.update
    cases hR : A.read db table { filter := some [("id", id)] } context with
    | error e => simp [hR]
    | ok ex =>
      rcases hAU : A.update db table id updates context with ⟨r, db1⟩
      cases r with
      | error e => simp [hR, hAU]
      | ok result => cases hd : result.data <;> simp [hR, hAU, hd]
  · unfold DataManagerV3.delete
    cases hR : A.read db table { filter := some [("id", id)] } context with
    | error e => simp [hR]
    | ok ex =>
      rcases hAD : A.delete db table id context with ⟨r, db1⟩
      cases r with
      | error e => simp [hR, hAD]
      | ok result => cases hd : result.data <;> simp [hR, hAD, hd]
  · unfold DataManagerV3.bulkCreate
    rcases hL : DataManagerV3.bulkLoop A cfg table context (bopts.skipCache = some true) db
        cache (DataManagerV3.chunkList (jsOrN bopts.batchSize 100) records) with ⟨res, db1, c1⟩
    cases res <;> simp [hL]

/-- C7 (amended): cache transparency of the facade's reads, as the code
actually provides it. (1) On a cache miss, `read` with the cache enabled
returns the entire `DataResult` the cache-disabled read returns. (2) A
repeated `read` over the same store returns the same `data` payload as the
first, whether it hits or misses. (3) When no pagination is requested (so the
adapter computes no count), the repeated read's entire result equals the
first's. (4) On a cache miss, `getById` with the cache enabled equals the
cache-disabled `getById`, and (5) a repeated `getById` always returns exactly
the first's result. What the original claim adds — count equality on a cache
hit when pagination was requested — is false: see the counterexample. -/
theorem c7_cache_transparency_amended :
    (∀ (A : AdapterModel) (cfg : CacheConfig) (db : DB) (c : RedisCache CVal)
        (table : String) (opts : QueryOptions) (ctx : TenantContext)
        (copts : ReadCacheOptions),
      RedisCacheAdapter.get c cfg (DataManagerV3.readCacheKey table opts ctx copts) ctx
          = none →
      (DataManagerV3.read A cfg db (some c) table opts ctx copts).1
        = (DataManagerV3.read A cfg db none table opts ctx copts).1) ∧
    (∀ (A : AdapterModel) (cfg : CacheConfig) (db : DB) (cache : Option (RedisCache CVal))
        (table : String) (opts : QueryOptions) (ctx : TenantContext)
        (copts : ReadCacheOptions),
      resultData ((DataManagerV3.read A cfg db
          (DataManagerV3.read A cfg db cache table opts ctx copts).2 table opts ctx copts).1)
        = resultData ((DataManagerV3.read A cfg db cache table opts ctx copts).1)) ∧
    (∀ (cfg : CacheConfig) (db : DB) (cache : Option (RedisCache CVal)) (table : String)
        (opts : QueryOptions) (ctx : TenantContext) (copts : ReadCacheOptions),
      opts.limit = none → opts.offset = none →
      (DataManagerV3.read pgAdapter cfg db
          (DataManagerV3.read pgAdapter cfg db cache table opts ctx copts).2
          table opts ctx copts).1
        = (DataManagerV3.read pgAdapter cfg db cache table opts ctx copts).1) ∧
    (∀ (A : AdapterModel) (cfg : CacheConfig) (db : DB) (c : RedisCache CVal)
        (table id : String) (ctx : TenantContext) (gopts : GetByIdOptions),
      RedisCacheAdapter.get c cfg (table ++ ":" ++ id) ctx = none →
      (DataManagerV3.getById A cfg db (some c) table id ctx gopts).1
        = (DataManagerV3.getById A cfg db none table id ctx gopts).1) ∧
    (∀ (A : AdapterModel) (cfg : CacheConfig) (db : DB) (cache : Option (RedisCache CVal))
        (table id : String) (ctx : TenantContext) (gopts : GetByIdOptions),
      (DataManagerV3.getById A cfg db
          (DataManagerV3.getById A cfg db cache table id ctx gopts).2 table id ctx gopts).1
        = (DataManagerV3.getById A cfg db cache table id ctx gopts).1) :=
  ⟨read_miss_eq, read_repeat_data, read_repeat_pg, getById_miss_eq, getById_repeat⟩

/-- Witness for C7: the amended transparency at a concrete store, options and
cold cache. -/
theorem c7_witness :
    ((DataManagerV3.read pgAdapter {} dbTwoA (some []) "t" {} ctxA {}).1
      = (DataManagerV3.read pgAdapter {} dbTwoA none "t" {} ctxA {}).1) ∧
    ((DataManagerV3.read pgAdapter {} dbTwoA
        (DataManagerV3.read pgAdapter {} dbTwoA (some []) "t" {} ctxA {}).2 "t" {} ctxA {}).1
      = (DataManagerV3.read pgAdapter {} dbTwoA (some []) "t" {} ctxA {}).1) ∧
    ((DataManagerV3.getById pgAdapter {} dbTwoA (some []) "t" "r1" ctxA {}).1
      = (DataManagerV3.getById pgAdapter {} dbTwoA none "t" "r1" ctxA {}).1) := by
  have h := c7_cache_transparency_amended
  exact ⟨h.1 pgAdapter {} dbTwoA [] "t" {} ctxA {} (by decide),
    h.2.2.1 {} dbTwoA (some []) "t" {} ctxA {} rfl rfl,
    h.2.2.2.1 pgAdapter {} dbTwoA [] "t" "r1" ctxA {} (by decide)⟩

/-- C7 counterexample: with pagination requested (`limit = 1`), the
cache-disabled read returns `count = some 2`, but the same read served from
the warm cache returns `count = none` — the results differ, refuting the
claim that the entire `DataResult`, count included, is identical. -/
theorem c7_counterexample :
    (DataManagerV3.read pgAdapter {} dbTwoA
        (DataManagerV3.read pgAdapter {} dbTwoA (some []) "t" { limit := some 1 } ctxA {}).2
        "t" { limit := some 1 } ctxA {}).1
      = .ok { data := some [⟨"r1", "A", []⟩], count := none } ∧
    (DataManagerV3.read pgAdapter {} dbTwoA none "t" { limit := some 1 } ctxA {}).1
      = .ok { data := some [⟨"r1", "A", []⟩], count := some 2 } ∧
    (DataManagerV3.read pgAdapter {} dbTwoA
        (DataManagerV3.read pgAdapter {} dbTwoA (some []) "t" { limit := some 1 } ctxA {}).2
        "t" { limit := some 1 } ctxA {}).1
      ≠ (DataManagerV3.read pgAdapter {} dbTwoA none "t" { limit := some 1 } ctxA {}).1 := by
  decide

/-- C1 (code bug, failing input evaluated): under tenant `A`'s context, the
MongoDB adapter's read with caller filter `{ tenant_id: "B" }` returns tenant
`B`'s record — the injected equality `tenant_id = ctx.tenant_id` is
overwritten by the caller filter (`query[key] = value`), violating the
isolation invariant; the PostgreSQL adapter on the same input correctly ANDs
the two conditions and returns nothing. -/
theorem c1_mongo_filter_override_breaks_isolation :
    MongoDBAdapter.read dbAcmeB "projects" { filter := some [("tenant_id", "B")] } ctxA
      = .ok { data := some [⟨"r1", "B", [("name", "Acme")]⟩], count := none } ∧
    PostgreSQLAdapter.read dbAcmeB "projects" { filter := some [("tenant_id", "B")] } ctxA
      = .ok { data := some [], count := none } ∧
    ctxA.tenant_id = "A" ∧ ("A" : String) ≠ "B" := by decide

/-- C2 (code bug, failing input evaluated): deleting another tenant's
existing id through the Supabase adapter returns success and deletes nothing,
and updating it surfaces `DATABASE_ERROR` (500) — while the PostgreSQL and
MongoDB adapters return the claimed `RESOURCE_NOT_FOUND` (404) error on the
identical input. On those two adapters a nonexistent id and another tenant's
existing id do produce byte-identical errors, as the claim describes; the
claim's "every adapter variant" is violated by the Supabase adapter. -/
theorem c2_supabase_notfound_divergence :
    SupabaseAdapter.delete dbOneA "projects" "r1" ctxB = (.ok { data := some () }, dbOneA) ∧
    (SupabaseAdapter.update dbOneA "projects" "r1" [("name", "x")] ctxB).1
      = .error { message := "Failed to update record"
                 code := ErrorCodes.DATABASE_ERROR, status := 500 } ∧
    (PostgreSQLAdapter.delete dbOneA "projects" "r1" ctxB).1
      = .error { message := "Record not found"
                 code := ErrorCodes.RESOURCE_NOT_FOUND, status := 404 } ∧
    (MongoDBAdapter.delete dbOneA "projects" "r1" ctxB).1
      = .error { message := "Document not found"
                 code := ErrorCodes.RESOURCE_NOT_FOUND, status := 404 } ∧
    (PostgreSQLAdapter.update dbOneA "projects" "r1" [("name", "x")] ctxB).1
      = .error { message := "Record not found or update failed"
                 code := ErrorCodes.RESOURCE_NOT_FOUND, status := 404 } ∧
    (PostgreSQLAdapter.delete dbOneA "projects" "missing" ctxB).1
      = (PostgreSQLAdapter.delete dbOneA "projects" "r1" ctxB).1 ∧
    (MongoDBAdapter.update dbOneA "projects" "missing" [("name", "x")] ctxB).1
      = (MongoDBAdapter.update dbOneA "projects" "r1" [("name", "x")] ctxB).1 := by decide

/-- C8 (code bug, failing input evaluated): with `batchSize = 1` and a
backend that rejects the first batch (the adapter's non-throwing
`{ data: null, error }` result), the facade's `bulkCreate` over two input
records returns a success result containing only one stored record — a
silent, strict, non-empty subset of the request. -/
theorem c8_bulkCreate_silent_subset :
    (DataManagerV3.bulkCreate rejectingAdapter {} false ⟨[], 0⟩ none "items"
        [[("poison", "1")], [("name", "ok")]] ctxA { batchSize := some 1 }).1
      = .ok { data := some [⟨"uuid-0", "A", [("name", "ok")]⟩] } ∧
    ([[("poison", "1")], [("name", "ok")]] : List Fields).length = 2 := by decide
